import Mathlib

/-!
Verification of the parent-to-child cost inheritance engine
(`src/backend/main.py`) of the maliyet_program repository: a shallow
embedding of the text/number helpers, the cargo code resolver, the
per-child inheritance executor and the approval gate, with theorems
settling the specification's claims about them.

Conventions: Python `str` is `List Char` (ASCII plus the Turkish
letters appearing in the source's token tables; `str.lower`/`str.upper`
are modelled on that alphabet and are the identity elsewhere), Python
`float` is `ℚ` with the source's formulas transcribed exactly,
`None` is `Option.none`, and Python dicts are insertion-ordered
association lists with unique keys.
-/

namespace Maliyet

/-- Python strings, as lists of characters. -/
abbrev Str := List Char

/-- Embed a Lean string literal into the model. -/
def strOf (s : String) : Str := s.toList

/-- Lowercase table for the alphabet used by the source (ASCII letters
plus the Turkish uppercase letters appearing in its token sets);
identity elsewhere.  Models Python `str.lower` on that alphabet. -/
def pyCharLower (c : Char) : Char :=
  if 'A' ≤ c ∧ c ≤ 'Z' then Char.ofNat (c.toNat + 32)
  else if c = 'Ç' then 'ç'
  else if c = 'Ğ' then 'ğ'
  else if c = 'İ' then 'i'
  else if c = 'Ö' then 'ö'
  else if c = 'Ş' then 'ş'
  else if c = 'Ü' then 'ü'
  else c

/-- Uppercase table, models Python `str.upper` on the same alphabet. -/
def pyCharUpper (c : Char) : Char :=
  if 'a' ≤ c ∧ c ≤ 'z' then Char.ofNat (c.toNat - 32)
  else if c = 'ç' then 'Ç'
  else if c = 'ğ' then 'Ğ'
  else if c = 'ı' then 'I'
  else if c = 'ö' then 'Ö'
  else if c = 'ş' then 'Ş'
  else if c = 'ü' then 'Ü'
  else c

def pyLower (s : Str) : Str := s.map pyCharLower

def pyUpper (s : Str) : Str := s.map pyCharUpper

/-- Python `str.casefold`; agrees with `str.lower` on the modelled
alphabet. -/
def pyCasefold (s : Str) : Str := pyLower s

/-- Whitespace recognised by Python's `str.strip` and by `\s` in `re`
(space, tab, newline, vertical tab, form feed, carriage return). -/
def isPySpace (c : Char) : Bool :=
  c = ' ' ∨ c = '\t' ∨ c = '\n' ∨ c = Char.ofNat 11 ∨ c = Char.ofNat 12 ∨ c = '\r'

/-- Python `str.strip()`: drop whitespace from both ends. -/
def pyStrip (s : Str) : Str :=
  ((s.dropWhile isPySpace).reverse.dropWhile isPySpace).reverse

/-- Insertion-ordered dictionary with string keys, as a list of
key/value pairs with unique keys. -/
abbrev DictS (α : Type) := List (Str × α)

/-- Python `dict.get(key)`. -/
def dget {α : Type} (d : DictS α) (k : Str) : Option α :=
  (d.find? (fun p => decide (p.1 = k))).map (·.2)

/-- Python `dict[key] = value`: replace the first binding of the key in
place, else append. -/
def dassign {α : Type} (d : DictS α) (k : Str) (v : α) : DictS α :=
  match d with
  | [] => [(k, v)]
  | (k', v') :: rest =>
      if k' = k then (k, v) :: rest else (k', v') :: dassign rest k v

/-! ## Text normalization and tiering (`main.py` lines 123-298) -/

/-- One character of `TOKEN_PATTERN = re.compile(r"[a-z0-9çğıöşü]+", re.I)`
(the `re.I` flag also admits the uppercase partners). -/
def isTokenChar (c : Char) : Bool :=
  ('a' ≤ c ∧ c ≤ 'z') ∨ ('0' ≤ c ∧ c ≤ '9') ∨ ('A' ≤ c ∧ c ≤ 'Z') ∨
  c = 'ç' ∨ c = 'ğ' ∨ c = 'ı' ∨ c = 'ö' ∨ c = 'ş' ∨ c = 'ü' ∨
  c = 'Ç' ∨ c = 'Ğ' ∨ c = 'İ' ∨ c = 'Ö' ∨ c = 'Ş' ∨ c = 'Ü'

/-- `re.findall` of a character-class pattern: the maximal runs of
characters satisfying `p`.  The first argument accumulates the current
run in reverse. -/
def runsAux (p : Char → Bool) (acc : Str) : Str → List Str
  | [] => if acc = [] then [] else [acc.reverse]
  | c :: cs =>
      if p c then runsAux p (c :: acc) cs
      else if acc = [] then runsAux p [] cs
      else acc.reverse :: runsAux p [] cs

/-- `KAPLAMA_STOP_TOKENS`. -/
def kaplamaStopTokens : List Str :=
  [strOf "cm", strOf "x", strOf "adet", strOf "li", strOf "ve", strOf "ile",
   strOf "icin", strOf "için", strOf "metal", strOf "ahsap", strOf "ahşap",
   strOf "cam", strOf "boyali", strOf "boyalı", strOf "kaplama"]

/-- `KAPLAMA_SILVER_TOKENS`. -/
def kaplamaSilverTokens : List Str :=
  [strOf "silver", strOf "gumus", strOf "gümüş", strOf "gümus"]

/-- `KAPLAMA_GOLD_COPPER_TOKENS`. -/
def kaplamaGoldCopperTokens : List Str :=
  [strOf "gold", strOf "altin", strOf "altın", strOf "copper", strOf "bakir",
   strOf "bakır", strOf "bronze", strOf "pirinc", strOf "pirinç", strOf "rosegold"]

/-- Python-set comprehension result, as a duplicate-free list keeping
first occurrences; `seen` accumulates the elements already kept. -/
def dedupAux {α : Type} [DecidableEq α] (seen : List α) : List α → List α
  | [] => []
  | x :: xs => if x ∈ seen then dedupAux seen xs else x :: dedupAux (x :: seen) xs

/-- Deduplicate a list keeping first occurrences. -/
def dedup {α : Type} [DecidableEq α] : List α → List α := dedupAux []

/-- `tokenize_text`: lowercase, extract alphanumeric runs, keep tokens of
length > 1 that are not stop tokens (a set, modelled as a deduplicated
list). -/
def tokenizeText (value : Option Str) : List Str :=
  match value with
  | none => []
  | some s =>
      if s = [] then []
      else
        let raw := pyLower s
        let tokens := runsAux isTokenChar [] raw
        dedup (tokens.filter (fun t => t.length > 1 ∧ t ∉ kaplamaStopTokens))

/-- `detect_kaplama_tier(*values)`. -/
def detectKaplamaTier (values : List (Option Str)) : Str :=
  let tokens := values.foldl (fun acc v => acc ++ tokenizeText v) []
  if tokens.any (fun t => t ∈ kaplamaGoldCopperTokens) then strOf "gold_copper"
  else if tokens.any (fun t => t ∈ kaplamaSilverTokens) then strOf "silver"
  else strOf "other"

/-- `build_kaplama_group_key(name, tier)`. -/
def buildKaplamaGroupKey (name tier : Option Str) : Str :=
  let normalizedName := pyStrip (name.getD [])
  let t0 := match tier with
    | none => strOf "other"
    | some t => if t = [] then strOf "other" else t
  let t1 := pyLower (pyStrip t0)
  let normalizedTier := if t1 = [] then strOf "other" else t1
  if normalizedName = [] then []
  else normalizedName ++ strOf "||" ++ normalizedTier

/-! ## Cost-name canonicalization (`database.py` lines 175, 416-424;
`main.py` lines 300-327) -/

/-- Case-insensitive literal match: consume `lit` from the front of the
input (comparing lowercased characters), returning the rest. -/
def matchCI : Str → Str → Option Str
  | [], cs => some cs
  | _ :: _, [] => none
  | l :: ls, c :: cs => if pyCharLower c = l then matchCI ls cs else none

/-- `\s*`: drop leading regex whitespace. -/
def skipWs (cs : Str) : Str := cs.dropWhile isPySpace

/-- Whether the whole input matches
`LEGACY_GOLD_SILVER_SUFFIX_PATTERN = \(\s*gold\s*,\s*silver\s*\)\s*$`
(case-insensitive, anchored at the end). -/
def legacySuffixMatches (cs : Str) : Bool :=
  match cs with
  | '(' :: rest =>
      match matchCI (strOf "gold") (skipWs rest) with
      | none => false
      | some r2 =>
          match skipWs r2 with
          | ',' :: r4 =>
              match matchCI (strOf "silver") (skipWs r4) with
              | none => false
              | some r6 =>
                  match skipWs r6 with
                  | ')' :: r8 => skipWs r8 = []
                  | _ => false
          | _ => false
  | _ => false

/-- Position of the leftmost match of the legacy suffix pattern. -/
def findLegacyStart : Str → Option Nat
  | [] => none
  | c :: rest =>
      if legacySuffixMatches (c :: rest) then some 0
      else (findLegacyStart rest).map (· + 1)

/-- `canonicalize_kaplama_cost_name`: strip, and rewrite a trailing
`(gold,silver)` suffix (flexible whitespace, any case) to
`(gold,copper)`. -/
def canonicalizeKaplamaCostName (name : Option Str) : Str :=
  let raw := pyStrip (name.getD [])
  if raw = [] then []
  else
    match findLegacyStart raw with
    | none => raw
    | some i => raw.take i ++ strOf "(gold,copper)"

/-- `normalize_cost_name_list` body: strip each raw value, optionally
canonicalize, drop empties, deduplicate by casefolded key keeping first
occurrences.  `seen` carries the casefolded keys already emitted. -/
def normalizeCostNameListAux (canonicalizeKaplama : Bool) :
    List Str → List Str → List Str
  | _, [] => []
  | seen, raw :: rest =>
      let name := pyStrip raw
      if name = [] then normalizeCostNameListAux canonicalizeKaplama seen rest
      else
        let name := if canonicalizeKaplama then canonicalizeKaplamaCostName (some name) else name
        if name = [] then normalizeCostNameListAux canonicalizeKaplama seen rest
        else
          let key := pyCasefold name
          if key ∈ seen then normalizeCostNameListAux canonicalizeKaplama seen rest
          else name :: normalizeCostNameListAux canonicalizeKaplama (key :: seen) rest

/-- A `str | list[str]` JSON value, as they appear in the request's
`kaplama_map` / `kaplama_name_map`. -/
inductive CostVal : Type
  | str (s : Str)
  | arr (l : List Str)
  deriving DecidableEq

/-- The `raw_values` unpacking of `normalize_cost_name_list`: a scalar
becomes a one-element list. -/
def CostVal.rawValues : CostVal → List Str
  | .str s => [s]
  | .arr l => l

/-- `normalize_cost_name_list(value, canonicalize_kaplama)`. -/
def normalizeCostNameList (canonicalizeKaplama : Bool) (value : CostVal) : List Str :=
  normalizeCostNameListAux canonicalizeKaplama [] value.rawValues

/-! ## Cargo code resolver (`main.py` lines 123, 263-270, 755-781) -/

/-- `[A-Z]` under `re.I`. -/
def isLetterAZ (c : Char) : Bool :=
  ('A' ≤ c ∧ c ≤ 'Z') ∨ ('a' ≤ c ∧ c ≤ 'z')

/-- `\d` (ASCII digits). -/
def isDigit09 (c : Char) : Bool := '0' ≤ c ∧ c ≤ '9'

/-- The `\s*-\s*(\d+[A-Z]?)` part of `KARGO_CODE_PATTERN`: skip
whitespace, require the dash, skip whitespace, take the (greedy) digit
run and an optional trailing letter; the group-2 text on success. -/
def dashDigitsTail (cs : Str) : Option Str :=
  match skipWs cs with
  | '-' :: r2 =>
      let r3 := skipWs r2
      let ds := r3.takeWhile isDigit09
      if ds = [] then none
      else
        let r4 := r3.dropWhile isDigit09
        let tl := match r4 with
          | d :: _ => if isLetterAZ d then [d] else []
          | [] => []
        some (ds ++ tl)
  | _ => none

/-- Attempt of `KARGO_CODE_PATTERN = ([A-Z])\s*-\s*(\d+[A-Z]?)` anchored
at the head of the input: group 1 is the letter, group 2 the digits plus
an optional trailing letter. -/
def matchKargoAt : Str → Option (Char × Str)
  | [] => none
  | c :: rest =>
      if isLetterAZ c then (dashDigitsTail rest).map (fun g2 => (c, g2))
      else none

/-- `re.search`: the leftmost position where the pattern matches. -/
def kargoSearch : Str → Option (Char × Str)
  | [] => none
  | c :: rest =>
      match matchKargoAt (c :: rest) with
      | some m => some m
      | none => kargoSearch rest

/-- `normalize_kargo_code`: uppercase the input, search for the pattern,
re-emit `LETTER-DIGITS`; `None` for a falsy input or when no match. -/
def normalizeKargoCode (value : Option Str) : Option Str :=
  match value with
  | none => none
  | some v =>
      if v = [] then none
      else
        match kargoSearch (pyUpper v) with
        | none => none
        | some (g1, g2) => some (g1 :: '-' :: g2)

/-- The epsilon inside `ceil_to_half`. -/
def inheritEps : ℚ := 1/1000000000

/-- `ceil_to_half` (local to `calculate_kargo_desi`):
`math.ceil(value * 2 - 1e-9) / 2.0`. -/
def ceilToHalf (value : ℚ) : ℚ := (Int.ceil (value * 2 - inheritEps) : ℚ) / 2

/-- `calculate_kargo_desi(en, boy, yukseklik, agirlik)`. -/
def calculateKargoDesi (en boy yukseklik agirlik : Option ℚ) : Option ℚ :=
  let hacimDesi : Option ℚ :=
    match en, boy, yukseklik with
    | some e, some b, some y =>
        if e > 0 ∧ b > 0 ∧ y > 0 then some (e * b * y / 5000) else none
    | _, _, _ => none
  match agirlik, hacimDesi with
  | none, none => none
  | none, some h => some (ceilToHalf h)
  | some a, none => some (ceilToHalf a)
  | some a, some h => some (ceilToHalf (max h a))

/-- Python `round` to an integer: banker's rounding (half to even). -/
def pyRoundHalfEven (x : ℚ) : ℤ :=
  let f := Int.floor x
  let r := x - f
  if r < 1/2 then f
  else if r > 1/2 then f + 1
  else if f % 2 = 0 then f else f + 1

/-- Python `round(x, 6)` as used for `rounded_agirlik`. -/
def pyRound6 (x : ℚ) : ℚ := (pyRoundHalfEven (x * 1000000) : ℚ) / 1000000

/-! ## Data model (products table and the inheritance request,
`models.py` lines 93-104, `main.py` lines 2563-2570) -/

/-- A row of the `products` table, restricted to the columns the
inheritance path reads or writes (`kategori` stands for the remaining
columns untouched by it). -/
structure Product where
  child_sku : Str
  parent_name : Option Str
  kategori : Str
  is_active : Bool
  child_name : Option Str
  alan_m2 : Option ℚ
  variation_size : Option Str
  variation_color : Option Str
  kargo_kodu : Option Str
  kargo_en : Option ℚ
  kargo_boy : Option ℚ
  kargo_yukseklik : Option ℚ
  kargo_agirlik : Option ℚ
  kargo_desi : Option ℚ
  deriving DecidableEq

/-- The projection fetched by the children query:
`SELECT child_sku, child_name, alan_m2, variation_size, variation_color`. -/
structure ChildRow where
  child_sku : Str
  child_name : Option Str
  alan_m2 : Option ℚ
  variation_size : Option Str
  variation_color : Option Str
  deriving DecidableEq

/-- Project a product row to the columns of the children query. -/
def Product.toChildRow (p : Product) : ChildRow :=
  ⟨p.child_sku, p.child_name, p.alan_m2, p.variation_size, p.variation_color⟩

/-- `WHERE parent_name = ? AND is_active = 1` over the products table,
then the `SELECT` projection. -/
def activeChildren (products : List Product) (parent : Str) : List ChildRow :=
  (products.filter (fun p => p.parent_name = some parent ∧ p.is_active)).map Product.toChildRow

/-- A row of the cargo rate table lookup (`load_kargo_lookup`). -/
structure KargoBox where
  kargo_en : Option ℚ
  kargo_boy : Option ℚ
  kargo_yukseklik : Option ℚ
  deriving DecidableEq

/-- `ParentInheritanceRequest` without `approval_id`; this is also the
approval payload (`req.model_dump(mode="json", exclude={"approval_id"})`),
whose JSON serialization is deterministic, so the byte comparison of
stored vs. fresh payloads is modelled as structural equality.  Pydantic
already coerced `weight_map` values to `float` and `materials` keys to
`int`, making the executor's `float()`/`int()` conversions identities
and their failure branches unreachable. -/
structure InheritCtx where
  parent_name : Str
  cost_map : DictS Str
  kaplama_map : DictS CostVal
  kaplama_name_map : DictS CostVal
  allow_missing_kaplama : Bool
  weight_map : DictS ℚ
  materials : List (Int × ℚ)
  sac_material_id : Option Int
  mdf_material_id : Option Int
  deriving DecidableEq

/-- Execution environment resolved outside the per-child loop: the cargo
rate table (`load_kargo_lookup`), the two name-pattern resolved material
ids (`Strafor`, `Boya + İşçilik`) and `INHERIT_RESPONSE_DETAIL_LIMIT`. -/
structure ExecEnv where
  kargoLookup : DictS KargoBox
  strafor_id : Option Int
  boya_id : Option Int
  inherit_detail_limit : Nat

/-! ## Inheritance executor (`main.py` lines 2559-2916) -/

/-- Python truthiness on an optional string: `None` and `""` are falsy. -/
def truthyStr : Option Str → Option Str
  | some s => if s = [] then none else some s
  | none => none

/-- Build `kaplama_name_map_exact` and `kaplama_name_map_ci`
(lines 2613-2623): skip blank keys and empty normalized name lists,
assign into both dicts. -/
def buildKaplamaNameMaps (m : DictS CostVal) : DictS (List Str) × DictS (List Str) :=
  m.foldl
    (fun maps kv =>
      let key := pyStrip kv.1
      if key = [] then maps
      else
        let names := normalizeCostNameList true kv.2
        if names = [] then maps
        else (dassign maps.1 key names, dassign maps.2 (pyLower key) names))
    ([], [])

/-- Build `kaplama_map_by_size` (lines 2625-2633). -/
def buildSizeNamesMap (m : DictS CostVal) : DictS (List Str) :=
  m.foldl
    (fun acc kv =>
      let key := pyStrip kv.1
      if key = [] then acc
      else
        let names := normalizeCostNameList true kv.2
        if names = [] then acc else dassign acc key names)
    []

/-- Build `kaplama_fallback_from_cost_map` (lines 2635-2643); the
cost-map values are plain strings. -/
def buildCostMapFallback (m : DictS Str) : DictS (List Str) :=
  m.foldl
    (fun acc kv =>
      let key := pyStrip kv.1
      if key = [] then acc
      else
        let names := normalizeCostNameList true (CostVal.str kv.2)
        if names = [] then acc else dassign acc key names)
    []

/-- The per-run maps after the pre-loop normalization. -/
structure PreparedCtx where
  cost_map : DictS Str
  kaplama_name_map_exact : DictS (List Str)
  kaplama_name_map_ci : DictS (List Str)
  kaplama_map_by_size : DictS (List Str)
  kaplama_fallback_from_cost_map : DictS (List Str)
  weight_map : DictS ℚ
  allow_missing_kaplama : Bool

/-- Normalize the request maps as the executor does before its loop. -/
def prepareCtx (ctx : InheritCtx) : PreparedCtx :=
  let nameMaps := buildKaplamaNameMaps ctx.kaplama_name_map
  { cost_map := ctx.cost_map
    kaplama_name_map_exact := nameMaps.1
    kaplama_name_map_ci := nameMaps.2
    kaplama_map_by_size := buildSizeNamesMap ctx.kaplama_map
    kaplama_fallback_from_cost_map := buildCostMapFallback ctx.cost_map
    weight_map := ctx.weight_map
    allow_missing_kaplama := ctx.allow_missing_kaplama }

/-- `child["variation_size"] or "(boyutsuz)"`. -/
def childSize (child : ChildRow) : Str :=
  match truthyStr child.variation_size with
  | some s => s
  | none => strOf "(boyutsuz)"

/-- Cargo cost-name resolution (lines 2653-2657): the size key, else the
wildcard `"*"`, empty strings counting as missing. -/
def resolveKargoName (pc : PreparedCtx) (size : Str) : Option Str :=
  let k1 := dget pc.cost_map size
  let k2 := match truthyStr k1 with
    | some s => some s
    | none => dget pc.cost_map (strOf "*")
  truthyStr k2

/-- The `lookup_keys` list for the name-based coating resolution
(lines 2669-2678), for a nonempty stripped child name. -/
def kaplamaLookupKeys (childName variationColor : Str) : List Str :=
  let tierKey := buildKaplamaGroupKey (some childName)
    (some (detectKaplamaTier [some childName, some variationColor]))
  (if tierKey ≠ [] then [tierKey] else []) ++
    (if variationColor ≠ [] then [childName ++ strOf "||" ++ variationColor] else []) ++
    [childName]

/-- The name-key loop (lines 2680-2693): strip each key, skip blanks and
keys whose lowercase was already tried, look up the exact map then the
case-insensitive map, stop at the first hit. -/
def resolveKaplamaByName (exact ci : DictS (List Str)) (seen : List Str) :
    List Str → List Str
  | [] => []
  | k :: ks =>
      let nk := pyStrip k
      if nk = [] then resolveKaplamaByName exact ci seen ks
      else
        let lk := pyLower nk
        if lk ∈ seen then resolveKaplamaByName exact ci seen ks
        else
          let names := (dget exact nk).getD []
          let names := if names = [] then (dget ci lk).getD [] else names
          if names = [] then resolveKaplamaByName exact ci (lk :: seen) ks else names

/-- Full coating resolution for one child (lines 2667-2703): name-based
lookup first; if it yields nothing, pick the size-keyed source map
(`kaplama_map_by_size` when nonempty, else nothing when a name map was
given, else the legacy cost-map fallback) and try the size key then the
wildcard. -/
def resolveKaplamaNames (pc : PreparedCtx) (childName variationColor size : Str) :
    List Str :=
  let byName :=
    if childName ≠ [] then
      resolveKaplamaByName pc.kaplama_name_map_exact pc.kaplama_name_map_ci []
        (kaplamaLookupKeys childName variationColor)
    else []
  if byName ≠ [] then byName
  else
    let sourceMap :=
      if pc.kaplama_map_by_size ≠ [] then pc.kaplama_map_by_size
      else if pc.kaplama_name_map_exact ≠ [] then []
      else pc.kaplama_fallback_from_cost_map
    let names := (dget sourceMap size).getD []
    if names ≠ [] then names else (dget sourceMap (strOf "*")).getD []

/-- Weight resolution (lines 2712-2714): size key else wildcard, by an
`is None` test (so a zero weight at the size key is kept). -/
def resolveWeight (pc : PreparedCtx) (size : Str) : Option ℚ :=
  match dget pc.weight_map size with
  | some w => some w
  | none => dget pc.weight_map (strOf "*")

/-- The staged per-child update (`product_updates` tuple together with
the data the `child_result` detail dict carries). -/
structure ChildUpdate where
  child_sku : Str
  alan_m2 : Option ℚ
  variation_size : Str
  kargo_cost_name : Str
  kaplama_cost_names : List Str
  kargo_kodu : Option Str
  kargo_en : Option ℚ
  kargo_boy : Option ℚ
  kargo_yukseklik : Option ℚ
  kargo_agirlik : ℚ
  kargo_desi : Option ℚ
  deriving DecidableEq

/-- One element of the skipped-children sample. -/
structure SkipEntry where
  child_sku : Str
  variation_size : Str
  reason : Str
  deriving DecidableEq

/-- Outcome of the per-child body: exactly one of a recorded skip or a
staged update. -/
inductive ChildOutcome : Type
  | skip (e : SkipEntry)
  | update (u : ChildUpdate)
  deriving DecidableEq

/-- The per-child resolution pipeline (lines 2645-2749): resolve the
cargo cost name, the coating cost names, the weight; derive the cargo
code, box dims and desi; weight values are floats already, so the
`float()` conversion is the identity and its `invalid weight` skip is
unreachable. -/
def processChild (env : ExecEnv) (pc : PreparedCtx) (child : ChildRow) : ChildOutcome :=
  let sku := child.child_sku
  let childName := pyStrip (child.child_name.getD [])
  let variationColor := pyStrip (child.variation_color.getD [])
  let size := childSize child
  match resolveKargoName pc size with
  | none => .skip ⟨sku, size, strOf "no kargo mapping"⟩
  | some kargoCostName =>
      let kaplamaCostNames := resolveKaplamaNames pc childName variationColor size
      if kaplamaCostNames = [] ∧ ¬ pc.allow_missing_kaplama then
        .skip ⟨sku, size, strOf "no kaplama mapping"⟩
      else
        match resolveWeight pc size with
        | none => .skip ⟨sku, size, strOf "no weight mapping"⟩
        | some w =>
            if w < 0 then .skip ⟨sku, size, strOf "negative weight"⟩
            else
              let kargoKodu := normalizeKargoCode (some kargoCostName)
              let kargoMeta := match kargoKodu with
                | some code => dget env.kargoLookup code
                | none => none
              let kargoEn := match kargoMeta with | some m => m.kargo_en | none => none
              let kargoBoy := match kargoMeta with | some m => m.kargo_boy | none => none
              let kargoYukseklik := match kargoMeta with | some m => m.kargo_yukseklik | none => none
              let kargoDesi := calculateKargoDesi kargoEn kargoBoy kargoYukseklik (some w)
              .update ⟨sku, child.alan_m2, size, kargoCostName, kaplamaCostNames,
                kargoKodu, kargoEn, kargoBoy, kargoYukseklik, pyRound6 w, kargoDesi⟩

/-- `auto_ids = {strafor_id, boya_id, sac_id, mdf_id} - {None}` as a
duplicate-free list. -/
def autoIds (env : ExecEnv) (ctx : InheritCtx) : List Int :=
  dedup ([env.strafor_id, env.boya_id, ctx.sac_material_id, ctx.mdf_material_id].filterMap id)

/-- `manual_material_assignments` (lines 2592-2602): request materials
minus the auto-calculated ids, in request order. -/
def manualMaterialAssignments (env : ExecEnv) (ctx : InheritCtx) : List (Int × ℚ) :=
  ctx.materials.filter (fun mq => mq.1 ∉ autoIds env ctx)

/-- Material upserts staged for one updated child (lines 2751-2753 and
2785-2804): the manual quantities, then the area-driven Strafor
(`alan × 1.2`), Boya+İşçilik (`alan × 5`), Saç (`alan`) and MDF (`alan`)
quantities, each rounded to 6 decimals, when the child's area is known. -/
def childMatUpserts (env : ExecEnv) (ctx : InheritCtx) (manual : List (Int × ℚ))
    (u : ChildUpdate) : List (Str × Int × ℚ) :=
  (manual.map (fun mq => (u.child_sku, mq.1, mq.2))) ++
    (match u.alan_m2 with
     | none => []
     | some alan =>
         (match env.strafor_id with
          | some i => [(u.child_sku, i, pyRound6 (alan * (12/10)))]
          | none => []) ++
         (match env.boya_id with
          | some i => [(u.child_sku, i, pyRound6 (alan * 5))]
          | none => []) ++
         (match ctx.sac_material_id with
          | some i => [(u.child_sku, i, pyRound6 alan)]
          | none => []) ++
         (match ctx.mdf_material_id with
          | some i => [(u.child_sku, i, pyRound6 alan)]
          | none => []))

/-- The assigned-cost loop for one child (lines 2756-2766): cargo name
then coating names, stripped, blanks dropped, deduplicated by casefolded
key. -/
def assignedCostsAux (sku : Str) (seen : List Str) : List Str → List (Str × Str)
  | [] => []
  | c :: cs =>
      let c' := pyStrip c
      if c' = [] then assignedCostsAux sku seen cs
      else
        let key := pyCasefold c'
        if key ∈ seen then assignedCostsAux sku seen cs
        else (sku, c') :: assignedCostsAux sku (key :: seen) cs

/-- Cost upserts staged for one updated child. -/
def childCostUpserts (u : ChildUpdate) : List (Str × Str) :=
  assignedCostsAux u.child_sku [] (u.kargo_cost_name :: u.kaplama_cost_names)

/-- The loop accumulator (lines 2604-2611). -/
structure RunAcc where
  updatedCount : Nat
  skippedCount : Nat
  updatedSample : List ChildUpdate
  skippedSample : List SkipEntry
  productUpdates : List ChildUpdate
  matUpserts : List (Str × Int × ℚ)
  costUpserts : List (Str × Str)

/-- The empty accumulator. -/
def RunAcc.empty : RunAcc := ⟨0, 0, [], [], [], [], []⟩

/-- One iteration of the children loop: a skip bumps the skip counter and
(limit permitting) the skip sample; an update bumps the update counter,
the update sample and the three staged batches. -/
def stepChild (env : ExecEnv) (ctx : InheritCtx) (pc : PreparedCtx)
    (manual : List (Int × ℚ)) (acc : RunAcc) (child : ChildRow) : RunAcc :=
  match processChild env pc child with
  | .skip e =>
      { acc with
        skippedCount := acc.skippedCount + 1
        skippedSample :=
          if 0 < env.inherit_detail_limit ∧ acc.skippedSample.length < env.inherit_detail_limit
          then acc.skippedSample ++ [e] else acc.skippedSample }
  | .update u =>
      { acc with
        updatedCount := acc.updatedCount + 1
        updatedSample :=
          if 0 < env.inherit_detail_limit ∧ acc.updatedSample.length < env.inherit_detail_limit
          then acc.updatedSample ++ [u] else acc.updatedSample
        productUpdates := acc.productUpdates ++ [u]
        matUpserts := acc.matUpserts ++ childMatUpserts env ctx manual u
        costUpserts := acc.costUpserts ++ childCostUpserts u }

/-- The staged `UPDATE products SET kargo_* WHERE child_sku = ?` applied
to one row. -/
def setCargoFields (p : Product) (u : ChildUpdate) : Product :=
  { p with
    kargo_kodu := u.kargo_kodu
    kargo_en := u.kargo_en
    kargo_boy := u.kargo_boy
    kargo_yukseklik := u.kargo_yukseklik
    kargo_agirlik := some u.kargo_agirlik
    kargo_desi := u.kargo_desi }

/-- One staged product update applied to the products table. -/
def applyProductUpdate (ps : List Product) (u : ChildUpdate) : List Product :=
  ps.map (fun p => if p.child_sku = u.child_sku then setCargoFields p u else p)

/-- `executemany` over the staged product updates. -/
def applyProductUpdates (ps : List Product) (us : List ChildUpdate) : List Product :=
  us.foldl applyProductUpdate ps

/-- The `product_materials` table keyed by its `(child_sku, material_id)`
unique constraint. -/
abbrev MatState := Str → Int → Option ℚ

/-- The `product_costs` table keyed by `(child_sku, cost_name)`, the
value being the `assigned` flag. -/
abbrev CostState := Str → Str → Option Bool

/-- `INSERT ... ON CONFLICT(child_sku, material_id) DO UPDATE SET
quantity = ?`: set the key to the staged quantity. -/
def applyMatUpserts (m : MatState) (ups : List (Str × Int × ℚ)) : MatState :=
  ups.foldl
    (fun m u => fun s i => if s = u.1 ∧ i = u.2.1 then some u.2.2 else m s i) m

/-- `INSERT ... VALUES (?, ?, 1) ON CONFLICT(child_sku, cost_name) DO
UPDATE SET assigned = 1`: set the key's assigned flag to true. -/
def applyCostUpserts (c : CostState) (ups : List (Str × Str)) : CostState :=
  ups.foldl
    (fun c u => fun s n => if s = u.1 ∧ n = u.2 then some true else c s n) c

/-- The relational store visible to the executor. -/
structure Store where
  products : List Product
  materials : MatState
  costs : CostState

/-- The response summary of one run (`main.py` lines 2903-2916). -/
structure InheritResult where
  children_updated : Nat
  children_skipped : Nat
  details : List ChildUpdate
  details_truncated : Nat
  skipped : List SkipEntry
  skipped_truncated : Nat
  deriving DecidableEq

/-- `HTTPException(404, "Bu parent altında ürün bulunamadı")`. -/
inductive InheritError : Type
  | notFound
  deriving DecidableEq

/-- The inheritance executor after the approval gate: fetch the active
children (404 when none), normalize the maps, fold the per-child loop,
apply the three staged batches to the store in one transaction, and
report the summary. -/
def runInherit (env : ExecEnv) (ctx : InheritCtx) (store : Store) :
    Except InheritError (Store × InheritResult) :=
  let children := activeChildren store.products ctx.parent_name
  if children = [] then .error .notFound
  else
    let pc := prepareCtx ctx
    let manual := manualMaterialAssignments env ctx
    let acc := children.foldl (stepChild env ctx pc manual) RunAcc.empty
    let store' : Store :=
      { products := applyProductUpdates store.products acc.productUpdates
        materials := applyMatUpserts store.materials acc.matUpserts
        costs := applyCostUpserts store.costs acc.costUpserts }
    .ok (store',
      { children_updated := acc.updatedCount
        children_skipped := acc.skippedCount
        details := acc.updatedSample
        details_truncated := acc.updatedCount - acc.updatedSample.length
        skipped := acc.skippedSample
        skipped_truncated := acc.skippedCount - acc.skippedSample.length })

/-! ## Approval gate (`main.py` lines 587-622, 1244-1309, 2503-2557,
2876-2901) -/

/-- An authenticated caller (`request.state.user`). -/
structure UserT where
  id : Int
  role : Str
  deriving DecidableEq

/-- A row of `approval_requests`.  The stored `payload` column holds the
deterministic JSON serialization of the request context, so it is kept
structurally; `executed_at` records whether the execution timestamp has
been stamped, `execution_result` the stamped summary
`(children_updated, children_skipped, parent_name)`. -/
structure ApprovalRow where
  id : Nat
  request_type : Str
  target : Option Str
  payload : InheritCtx
  status : Str
  requested_by : Option Int
  reviewed_by : Option Int
  review_note : Option Str
  executed_at : Bool
  execution_result : Option (Nat × Nat × Str)
  deriving DecidableEq

/-- The whole system state: the approval table (with its autoincrement
counter) and the relational store. -/
structure SysState where
  approvals : List ApprovalRow
  next_id : Nat
  store : Store

/-- `SELECT ... FROM approval_requests WHERE id = ?`. -/
def findApproval (st : SysState) (aid : Nat) : Option ApprovalRow :=
  st.approvals.find? (fun r => decide (r.id = aid))

/-- `create_approval_request`: insert a `pending` row carrying the exact
payload, owned by the caller, and return its fresh id. -/
def createApprovalRequest (st : SysState) (requestType : Str) (target : Option Str)
    (payload : InheritCtx) (user : UserT) : SysState × Nat :=
  let row : ApprovalRow :=
    { id := st.next_id
      request_type := pyStrip requestType
      target := target
      payload := payload
      status := strOf "pending"
      requested_by := some user.id
      reviewed_by := none
      review_note := none
      executed_at := false
      execution_result := none }
  ({ st with approvals := st.approvals ++ [row], next_id := st.next_id + 1 }, st.next_id)

/-- Python truthiness on an optional integer id: `None` and `0` are
falsy. -/
def truthyNat : Option Nat → Option Nat
  | some n => if n = 0 then none else some n
  | none => none

/-- Outcome of one `/api/inherit` submission. -/
inductive SubmitOutcome : Type
  | pendingApproval (approvalId : Nat)
  | httpError (code : Nat) (detail : Str)
  | ok (result : InheritResult)

/-- Whether the submission ran the inheritance executor to completion. -/
def SubmitOutcome.isExecuted : SubmitOutcome → Bool
  | .ok _ => true
  | _ => false

/-- The per-row effect of the post-execution stamp: set `executed_at` and
`execution_result`; the status column is not touched. -/
def stampRow (res : InheritResult) (parent : Str) (r : ApprovalRow) : ApprovalRow :=
  { r with
    executed_at := true
    execution_result := some (res.children_updated, res.children_skipped, parent) }

/-- The post-execution stamp (lines 2876-2901) applied to the approval
table. -/
def stampApproval (st : SysState) (aid : Nat) (res : InheritResult) (parent : Str) :
    SysState :=
  { st with
    approvals := st.approvals.map (fun r =>
      if r.id = aid then stampRow res parent r else r) }

/-- Run the executor against the store and, when an approval id was
carried (`if approval_id:`), stamp the approval row with the execution
summary. -/
def executeAndStamp (env : ExecEnv) (st : SysState) (ctx : InheritCtx)
    (approvalId : Option Nat) : SysState × SubmitOutcome :=
  match runInherit env ctx st.store with
  | .error .notFound => (st, .httpError 404 (strOf "Bu parent altında ürün bulunamadı"))
  | .ok (store', res) =>
      let st' : SysState := { st with store := store' }
      let st'' := match truthyNat approvalId with
        | some aid => stampApproval st' aid res ctx.parent_name
        | none => st'
      (st'', .ok res)

/-- `apply_parent_inheritance` (`POST /api/inherit`): with the approval
workflow enabled, a non-admin submission without an approval id creates
a pending request; one carrying an approval id passes the
existence/type/status/owner/payload checks before executing; admins (or
a disabled workflow) execute immediately. -/
def submitInherit (enableApprovalWorkflow : Bool) (env : ExecEnv) (st : SysState)
    (user : UserT) (ctx : InheritCtx) (approvalId : Option Nat) :
    SysState × SubmitOutcome :=
  if enableApprovalWorkflow ∧ user.role ≠ strOf "admin" then
    match truthyNat approvalId with
    | none =>
        let created := createApprovalRequest st (strOf "inherit.apply")
          (some ctx.parent_name) ctx user
        (created.1, .pendingApproval created.2)
    | some aid =>
        match findApproval st aid with
        | none => (st, .httpError 404 (strOf "Onay kaydı bulunamadı"))
        | some row =>
            if pyStrip row.request_type ≠ strOf "inherit.apply" then
              (st, .httpError 400 (strOf "approval_id bu işlem tipiyle uyumlu değil"))
            else if pyLower (pyStrip row.status) ≠ strOf "approved" then
              (st, .httpError 409 (strOf "İşlem henüz onaylanmamış"))
            else if (match row.requested_by with
                     | some rb => decide (rb ≠ 0 ∧ rb ≠ user.id)
                     | none => false) then
              (st, .httpError 403 (strOf "Bu onay kaydı başka kullanıcıya ait"))
            else if row.payload ≠ ctx then
              (st, .httpError 400 (strOf "Onay sonrası payload değişmiş. Yeniden onay isteği açın."))
            else executeAndStamp env st ctx approvalId
  else executeAndStamp env st ctx approvalId

/-- Outcome of `review_approval` (`POST /api/approvals/{id}/review`). -/
inductive ReviewOutcome : Type
  | ok (newStatus : Str)
  | httpError (code : Nat) (detail : Str)

/-- `review_approval`: admin only; the row must exist and be `pending`;
approve moves it to `approved`, otherwise to `rejected`. -/
def reviewApproval (st : SysState) (admin : UserT) (aid : Nat) (approve : Bool)
    (reviewNote : Option Str) : SysState × ReviewOutcome :=
  if admin.role ≠ strOf "admin" then
    (st, .httpError 403 (strOf "Bu işlem için admin yetkisi gerekli"))
  else
    match findApproval st aid with
    | none => (st, .httpError 404 (strOf "Onay kaydı bulunamadı"))
    | some row =>
        if pyLower row.status ≠ strOf "pending" then
          (st, .httpError 409 (strOf "Bu kayıt bekleyen onay durumunda değil"))
        else
          let newStatus := if approve then strOf "approved" else strOf "rejected"
          let note := truthyStr (some (pyStrip (reviewNote.getD [])))
          let st' : SysState :=
            { st with
              approvals := st.approvals.map (fun r =>
                if r.id = aid then
                  { r with status := newStatus, reviewed_by := some admin.id, review_note := note }
                else r) }
          (st', .ok newStatus)

/-! ## Specification-side definitions used for refinement comparisons -/

/-- The desi computation as the spec states it (§4.2): volumetric desi is
defined exactly when all three dimensions are present and positive; the
final desi is `ceil_to_half` of the max when both volumetric and weight
are known, of the single known one otherwise, and null when neither is
known. -/
def desiSpecChain (en boy yukseklik agirlik : Option ℚ) : Option ℚ :=
  let volumetric : Option ℚ :=
    match en, boy, yukseklik with
    | some e, some b, some y =>
        if 0 < e ∧ 0 < b ∧ 0 < y then some (e * b * y / 5000) else none
    | _, _, _ => none
  match volumetric, agirlik with
  | some v, some a => some (ceilToHalf (max v a))
  | some v, none => some (ceilToHalf v)
  | none, some a => some (ceilToHalf a)
  | none, none => none

/-- Whether a dash (after optional whitespace) followed by optional
whitespace and a digit starts the input: the separator part of the
claimed letter-dash-digit shape. -/
def dashThenDigit (cs : Str) : Bool :=
  match skipWs cs with
  | '-' :: r2 =>
      (match skipWs r2 with
       | d :: _ => isDigit09 d
       | [] => false)
  | _ => false

/-- Whether the cargo code pattern (a letter, then a dash with optional
surrounding whitespace, then a digit) matches at the head of the input. -/
def headKargoPattern : Str → Bool
  | [] => false
  | c :: rest => isLetterAZ c && dashThenDigit rest

/-- Whether a letter-dash-digit cargo code pattern occurs anywhere in the
input. -/
def hasKargoPattern : Str → Bool
  | [] => false
  | c :: rest => headKargoPattern (c :: rest) || hasKargoPattern rest

/-! ## Helper lemmas -/

/-- Evaluate `ceilToHalf` by bracketing the shifted argument. -/
theorem ceilToHalf_eq_of (v : ℚ) (n : ℤ) (h1 : (n : ℚ) - 1 < v * 2 - inheritEps)
    (h2 : v * 2 - inheritEps ≤ n) : ceilToHalf v = n / 2 := by
  unfold ceilToHalf
  rw [show (⌈v * 2 - inheritEps⌉ : ℤ) = n from Int.ceil_eq_iff.mpr ⟨h1, h2⟩]

/-- The dash-digits parser succeeds exactly when the boolean separator
shape holds. -/
theorem dashDigitsTail_isSome (cs : Str) :
    (dashDigitsTail cs).isSome = dashThenDigit cs := by
  unfold dashDigitsTail dashThenDigit
  split
  · rename_i r2 _
    cases hr3 : skipWs r2 with
    | nil => simp [List.takeWhile]
    | cons d r5 =>
        by_cases hd : isDigit09 d
        · simp [List.takeWhile, hd]
        · simp [List.takeWhile, hd]
  · rfl

/-- A successful head match of the full pattern coincides with the
boolean head pattern. -/
theorem matchKargoAt_isSome (cs : Str) :
    (matchKargoAt cs).isSome = headKargoPattern cs := by
  match cs with
  | [] => rfl
  | c :: rest =>
      simp only [matchKargoAt, headKargoPattern]
      by_cases hc : isLetterAZ c
      · simp [hc, dashDigitsTail_isSome]
      · simp [hc]

/-- The leftmost search succeeds exactly when the pattern occurs. -/
theorem kargoSearch_isSome (cs : Str) :
    (kargoSearch cs).isSome = hasKargoPattern cs := by
  induction cs with
  | nil => rfl
  | cons c rest ih =>
      simp only [kargoSearch, hasKargoPattern]
      match hm : matchKargoAt (c :: rest) with
      | some m => simp [← matchKargoAt_isSome, hm]
      | none =>
          have hhead : headKargoPattern (c :: rest) = false := by
            rw [← matchKargoAt_isSome, hm]; rfl
          simp [hhead, ih]

/-- Whether a per-child outcome is a skip. -/
def ChildOutcome.isSkip : ChildOutcome → Bool
  | .skip _ => true
  | .update _ => false

/-- Counting and sample-length invariants of the children loop: the two
counters absorb exactly one unit per child, the skip counter counts the
skip outcomes, and the skip sample stays within the detail limit and
below the skip counter. -/
theorem stepChild_fold_counts (env : ExecEnv) (ctx : InheritCtx) (pc : PreparedCtx)
    (manual : List (Int × ℚ)) (children : List ChildRow) :
    ∀ acc : RunAcc,
      ((children.foldl (stepChild env ctx pc manual) acc).updatedCount
          + (children.foldl (stepChild env ctx pc manual) acc).skippedCount
        = acc.updatedCount + acc.skippedCount + children.length) ∧
      ((children.foldl (stepChild env ctx pc manual) acc).skippedCount
        = acc.skippedCount
            + children.countP (fun c => (processChild env pc c).isSkip)) ∧
      (acc.skippedSample.length ≤ env.inherit_detail_limit →
        (children.foldl (stepChild env ctx pc manual) acc).skippedSample.length
          ≤ env.inherit_detail_limit) ∧
      (acc.skippedSample.length ≤ acc.skippedCount →
        (children.foldl (stepChild env ctx pc manual) acc).skippedSample.length
          ≤ (children.foldl (stepChild env ctx pc manual) acc).skippedCount) := by
  induction children with
  | nil => intro acc; simp
  | cons c cs ih =>
      intro acc
      simp only [List.foldl_cons, List.countP_cons, List.length_cons]
      obtain ⟨H1, H2, H3, H4⟩ := ih (stepChild env ctx pc manual acc c)
      cases hpc : processChild env pc c with
      | skip e =>
          have ha : (stepChild env ctx pc manual acc c).updatedCount = acc.updatedCount := by
            simp [stepChild, hpc]
          have hb : (stepChild env ctx pc manual acc c).skippedCount
              = acc.skippedCount + 1 := by
            simp [stepChild, hpc]
          have hs : (stepChild env ctx pc manual acc c).skippedSample.length
                ≤ acc.skippedSample.length + 1 ∧
              (acc.skippedSample.length ≤ env.inherit_detail_limit →
                (stepChild env ctx pc manual acc c).skippedSample.length
                  ≤ env.inherit_detail_limit) := by
            simp only [stepChild, hpc]
            constructor
            · split_ifs <;> simp
            · intro hlen
              split_ifs with hcond
              · simp only [List.length_append, List.length_singleton]
                omega
              · exact hlen
          have hskip : (processChild env pc c).isSkip = true := by rw [hpc]; rfl
          rw [ha, hb] at H1
          rw [hb] at H2
          refine ⟨by omega, ?_, fun hlen => H3 (hs.2 hlen), ?_⟩
          · rw [if_pos (by rw [hpc] at hskip; exact hskip)]
            omega
          · intro hlc
            apply H4
            rw [hb]
            have := hs.1
            omega
      | update u =>
          have ha : (stepChild env ctx pc manual acc c).updatedCount
              = acc.updatedCount + 1 := by
            simp [stepChild, hpc]
          have hb : (stepChild env ctx pc manual acc c).skippedCount
              = acc.skippedCount := by
            simp [stepChild, hpc]
          have hs : (stepChild env ctx pc manual acc c).skippedSample
              = acc.skippedSample := by
            simp [stepChild, hpc]
          have hskip : (processChild env pc c).isSkip = false := by rw [hpc]; rfl
          rw [ha, hb] at H1
          rw [hb] at H2
          refine ⟨by omega, ?_, fun hlen => H3 (by rw [hs]; exact hlen), ?_⟩
          · rw [if_neg (by rw [hpc] at hskip; simp [hskip])]
            omega
          · intro hlc
            apply H4
            rw [hs, hb]
            exact hlc

/-! ## Claim theorems -/

/-- C1: whenever `apply_inheritance` reaches execution (some active child
exists and the approval gate passed), `children_updated + children_skipped`
equals the number of active children of the parent, for every combination
of the request maps and `allow_missing_kaplama`; the skip counter counts
exactly the skip outcomes, and even when the returned skipped sample is
truncated by the configured limit the count itself stays exact
(`children_skipped = |skipped sample| + skipped_truncated`, sample length
bounded by the limit). -/
theorem c1_skip_accounting (env : ExecEnv) (ctx : InheritCtx) (store : Store)
    (s' : Store) (res : InheritResult)
    (h : runInherit env ctx store = Except.ok (s', res)) :
    res.children_updated + res.children_skipped
        = (activeChildren store.products ctx.parent_name).length ∧
    res.children_skipped
        = (activeChildren store.products ctx.parent_name).countP
            (fun c => (processChild env (prepareCtx ctx) c).isSkip) ∧
    res.skipped.length ≤ env.inherit_detail_limit ∧
    res.children_skipped = res.skipped.length + res.skipped_truncated := by
  revert h
  simp only [runInherit]
  split
  · intro h
    exact absurd h (by simp)
  · intro h
    rw [Except.ok.injEq, Prod.mk.injEq] at h
    obtain ⟨h1, h2⟩ := h
    subst h2
    dsimp only
    obtain ⟨K1, K2, K3, K4⟩ := stepChild_fold_counts env ctx (prepareCtx ctx)
      (manualMaterialAssignments env ctx) (activeChildren store.products ctx.parent_name)
      RunAcc.empty
    simp only [RunAcc.empty] at K1 K2 K3 K4 ⊢
    have K3' := K3 (Nat.zero_le _)
    have K4' := K4 (Nat.le_refl 0)
    refine ⟨by omega, by omega, K3', by omega⟩

/-- A single active child under the parent; with an empty request every
child is skipped at the cargo step, exercising the accounting. -/
def prodW1 : Product :=
  { child_sku := strOf "SKU1", parent_name := some (strOf "P"),
    kategori := strOf "metal", is_active := true,
    child_name := some (strOf "Lamp"), alan_m2 := none,
    variation_size := some (strOf "S"), variation_color := none,
    kargo_kodu := none, kargo_en := none, kargo_boy := none,
    kargo_yukseklik := none, kargo_agirlik := none, kargo_desi := none }

/-- A fixture environment: empty cargo table, no auto materials, default
detail limit. -/
def envW1 : ExecEnv := ⟨[], none, none, 250⟩

/-- A fixture request with empty maps for parent `P`. -/
def ctxW1 : InheritCtx := ⟨strOf "P", [], [], [], false, [], [], none, none⟩

/-- A fixture store holding only the one child and empty tables. -/
def storeW1 : Store := ⟨[prodW1], fun _ _ => none, fun _ _ => none⟩

/-- The summary the fixture run returns: its one child is skipped for
lack of a cargo mapping. -/
def resW1 : InheritResult :=
  ⟨0, 1, [], 0, [⟨strOf "SKU1", strOf "S", strOf "no kargo mapping"⟩], 0⟩

/-- Witness for C1: the fixture run executes and its counters sum to the
number of active children. -/
theorem c1_skip_accounting_witness :
    runInherit envW1 ctxW1 storeW1 = Except.ok (storeW1, resW1) ∧
    resW1.children_updated + resW1.children_skipped
      = (activeChildren storeW1.products ctxW1.parent_name).length ∧
    resW1.skipped.length ≤ envW1.inherit_detail_limit := by
  have hrun : runInherit envW1 ctxW1 storeW1 = Except.ok (storeW1, resW1) := by rfl
  exact ⟨hrun, (c1_skip_accounting _ _ _ _ _ hrun).1,
    (c1_skip_accounting _ _ _ _ _ hrun).2.2.1⟩

/-- The non-cargo columns of a product row: everything the staged product
update leaves alone. -/
def nonCargoView (p : Product) :
    Str × Option Str × Str × Bool × Option Str × Option ℚ × Option Str × Option Str :=
  (p.child_sku, p.parent_name, p.kategori, p.is_active, p.child_name,
    p.alan_m2, p.variation_size, p.variation_color)

/-- The effect of the whole staged product-update batch on a single row:
the last staged tuple whose sku matches wins. -/
def rowApply (us : List ChildUpdate) (p : Product) : Product :=
  us.foldl (fun p u => if p.child_sku = u.child_sku then setCargoFields p u else p) p

/-- The batch application is the rowwise application. -/
theorem applyProductUpdates_eq_map (us : List ChildUpdate) :
    ∀ ps, applyProductUpdates ps us = ps.map (rowApply us) := by
  induction us with
  | nil =>
      intro ps
      have hid : rowApply ([] : List ChildUpdate) = id := funext fun p => rfl
      show ps = List.map (rowApply []) ps
      rw [hid, List.map_id]
  | cons u us ih =>
      intro ps
      show applyProductUpdates (applyProductUpdate ps u) us = _
      rw [ih]
      unfold applyProductUpdate
      rw [List.map_map]
      have hfun : rowApply us ∘
          (fun p => if p.child_sku = u.child_sku then setCargoFields p u else p)
          = rowApply (u :: us) := funext fun p => rfl
      rw [hfun]

/-- Row application never changes the non-cargo columns. -/
theorem rowApply_nonCargo (us : List ChildUpdate) :
    ∀ p, nonCargoView (rowApply us p) = nonCargoView p := by
  induction us with
  | nil => intro p; rfl
  | cons u us ih =>
      intro p
      show nonCargoView (rowApply us
        (if p.child_sku = u.child_sku then setCargoFields p u else p)) = _
      rw [ih]
      split_ifs <;> rfl

/-- A pointwise-preserving map is rowwise related to the original list. -/
theorem forall₂_map_self {α : Type} {P : α → α → Prop} {f : α → α}
    (hf : ∀ a, P (f a) a) : ∀ l : List α, List.Forall₂ P (l.map f) l := by
  intro l
  induction l with
  | nil => exact List.Forall₂.nil
  | cons a l ih => exact List.Forall₂.cons (hf a) ih

/-- C9: the executor never writes a child's `alan_m2`: every product row
after a run agrees with the row before it on all non-cargo columns
(sku, parent, category, activity, name, `alan_m2`, size, color); the
staged update only touches the six cargo columns, and the staged weight
is the resolved weight rounded to 6 decimals. -/
theorem c9_frame_effect (env : ExecEnv) (ctx : InheritCtx) (store : Store)
    (s' : Store) (res : InheritResult)
    (h : runInherit env ctx store = Except.ok (s', res)) :
    List.Forall₂ (fun p' p => nonCargoView p' = nonCargoView p)
        s'.products store.products ∧
    (∀ p u, nonCargoView (setCargoFields p u) = nonCargoView p) ∧
    (∀ pc child u, processChild env pc child = ChildOutcome.update u →
      ∃ w, resolveWeight pc (childSize child) = some w ∧
        u.kargo_agirlik = pyRound6 w) := by
  refine ⟨?_, fun p u => rfl, ?_⟩
  · revert h
    simp only [runInherit]
    split
    · intro h
      exact absurd h (by simp)
    · intro h
      rw [Except.ok.injEq, Prod.mk.injEq] at h
      obtain ⟨h1, _⟩ := h
      subst h1
      show List.Forall₂ _ (applyProductUpdates store.products _) store.products
      rw [applyProductUpdates_eq_map]
      exact forall₂_map_self (rowApply_nonCargo _) _
  · intro pc child u hu
    simp only [processChild] at hu
    split at hu
    · exact ChildOutcome.noConfusion hu
    · split at hu
      · exact ChildOutcome.noConfusion hu
      · split at hu
        · exact ChildOutcome.noConfusion hu
        · split at hu
          · exact ChildOutcome.noConfusion hu
          · rename_i w hw hneg
            refine ⟨w, hw, ?_⟩
            injection hu with hu'
            rw [← hu']

/-- Witness for C9: the fixture run preserves all non-cargo columns. -/
theorem c9_frame_effect_witness :
    runInherit envW1 ctxW1 storeW1 = Except.ok (storeW1, resW1) ∧
    List.Forall₂ (fun p' p => nonCargoView p' = nonCargoView p)
      storeW1.products storeW1.products := by
  have hrun : runInherit envW1 ctxW1 storeW1 = Except.ok (storeW1, resW1) := by rfl
  exact ⟨hrun, (c9_frame_effect _ _ _ _ _ hrun).1⟩

/-- One name-key attempt, as lines 2682-2691 compute it for a single
key: strip the key, read the exact map, then the case-insensitive map
under the lowercased key. -/
def tryNameKey (exact ci : DictS (List Str)) (k : Str) : List Str :=
  let nk := pyStrip k
  let names := (dget exact nk).getD []
  if names = [] then (dget ci (pyLower nk)).getD [] else names

/-- First nonempty result of an ordered strategy list. -/
def firstNonEmpty : List (List Str) → List Str
  | [] => []
  | l :: ls => if l = [] then firstNonEmpty ls else l

/-- Size-keyed lookup: the exact size key, else the wildcard `"*"`. -/
def trySizeKey (m : DictS (List Str)) (size : Str) : List Str :=
  let names := (dget m size).getD []
  if names = [] then (dget m (strOf "*")).getD [] else names

/-- Modelled from the amended claim, in the spec's §9 ordered-strategies
style: try the name keys in order (compound name+tier key, name+color
key, bare name; each exact then case-insensitively), first nonempty
match wins; otherwise consult `kaplama_map` by size/wildcard when it is
nonempty; otherwise, when a name map was supplied, resolve nothing;
otherwise fall back to the legacy cost-map-as-coating by size/wildcard. -/
def kaplamaResolveAmended (pc : PreparedCtx) (childName variationColor size : Str) :
    List Str :=
  let nameKeys := if childName ≠ [] then kaplamaLookupKeys childName variationColor else []
  let byName := firstNonEmpty
    (nameKeys.map (tryNameKey pc.kaplama_name_map_exact pc.kaplama_name_map_ci))
  if byName ≠ [] then byName
  else if pc.kaplama_map_by_size ≠ [] then trySizeKey pc.kaplama_map_by_size size
  else if pc.kaplama_name_map_exact ≠ [] then []
  else trySizeKey pc.kaplama_fallback_from_cost_map size

/-- The resolution chain as claim C4 words it: the same name-key chain,
but with the size fallback always preferring `kaplama_map` and then
consulting the legacy `cost_map`-as-coating fallback unconditionally. -/
def kaplamaResolveClaimed (pc : PreparedCtx) (childName variationColor size : Str) :
    List Str :=
  let nameKeys := if childName ≠ [] then kaplamaLookupKeys childName variationColor else []
  let byName := firstNonEmpty
    (nameKeys.map (tryNameKey pc.kaplama_name_map_exact pc.kaplama_name_map_ci))
  if byName ≠ [] then byName
  else
    let bySize := trySizeKey pc.kaplama_map_by_size size
    if bySize ≠ [] then bySize
    else trySizeKey pc.kaplama_fallback_from_cost_map size

/-- `dict.get` on an empty dictionary. -/
theorem dget_nil {α : Type} (k : Str) : dget ([] : DictS α) k = none := rfl

/-- `dict.get` on a nonempty dictionary. -/
theorem dget_cons {α : Type} (d : DictS α) (k0 : Str) (v0 : α) (k' : Str) :
    dget ((k0, v0) :: d) k' = if k0 = k' then some v0 else dget d k' := by
  unfold dget
  by_cases h : k0 = k'
  · simp [List.find?_cons, h]
  · simp [List.find?_cons, h]

/-- `dict.get` after `dict[key] = value`. -/
theorem dget_dassign {α : Type} (d : DictS α) (k k' : Str) (v : α) :
    dget (dassign d k v) k' = if k' = k then some v else dget d k' := by
  induction d with
  | nil =>
      show dget [(k, v)] k' = _
      rw [dget_cons, dget_nil]
      by_cases h : k' = k
      · rw [if_pos h.symm, if_pos h]
      · rw [if_neg (fun hh => h hh.symm), if_neg h]
  | cons hd tl ih =>
      obtain ⟨k0, v0⟩ := hd
      by_cases h0 : k0 = k
      · subst h0
        rw [show dassign ((k0, v0) :: tl) k0 v = (k0, v) :: tl from by
          simp [dassign]]
        rw [dget_cons, dget_cons]
        by_cases h' : k0 = k'
        · rw [if_pos h', if_pos h'.symm]
        · rw [if_neg h', if_neg (fun hh => h' hh.symm), if_neg h']
      · rw [show dassign ((k0, v0) :: tl) k v = (k0, v0) :: dassign tl k v from by
          simp [dassign, h0]]
        rw [dget_cons, ih, dget_cons]
        by_cases h' : k0 = k'
        · rw [if_pos h', if_pos h', if_neg (fun hh : k' = k => h0 (h'.trans hh))]
        · rw [if_neg h', if_neg h']

/-- Well-formedness of the paired exact/case-insensitive name maps as the
pre-loop normalization builds them: all values nonempty, every exact key
reachable through the ci map under its lowercased key, no empty keys. -/
structure NameMapsInv (exact ci : DictS (List Str)) : Prop where
  exact_nonempty : ∀ k v, dget exact k = some v → v ≠ []
  exact_ci : ∀ k v, dget exact k = some v → ∃ w, dget ci (pyLower k) = some w ∧ w ≠ []
  ci_nonempty : ∀ k w, dget ci k = some w → w ≠ []
  exact_empty_key : dget exact [] = none
  ci_empty_key : dget ci [] = none

/-- `buildKaplamaNameMaps` establishes the pairing invariant. -/
theorem buildKaplamaNameMaps_inv (m : DictS CostVal) :
    NameMapsInv (buildKaplamaNameMaps m).1 (buildKaplamaNameMaps m).2 := by
  suffices h : ∀ (init : DictS (List Str) × DictS (List Str)),
      NameMapsInv init.1 init.2 →
      NameMapsInv
        (m.foldl
          (fun maps kv =>
            let key := pyStrip kv.1
            if key = [] then maps
            else
              let names := normalizeCostNameList true kv.2
              if names = [] then maps
              else (dassign maps.1 key names, dassign maps.2 (pyLower key) names))
          init).1
        (m.foldl
          (fun maps kv =>
            let key := pyStrip kv.1
            if key = [] then maps
            else
              let names := normalizeCostNameList true kv.2
              if names = [] then maps
              else (dassign maps.1 key names, dassign maps.2 (pyLower key) names))
          init).2 by
    exact h ([], [])
      ⟨fun k v hv => by simp [dget] at hv, fun k v hv => by simp [dget] at hv,
       fun k w hw => by simp [dget] at hw, by simp [dget], by simp [dget]⟩
  intro init hinit
  induction m generalizing init with
  | nil => exact hinit
  | cons kv rest ih =>
      simp only [List.foldl_cons]
      apply ih
      by_cases hk : pyStrip kv.1 = []
      · simpa [hk] using hinit
      · by_cases hn : normalizeCostNameList true kv.2 = []
        · simpa [hk, hn] using hinit
        · simp only [hk, hn, if_neg, if_false]
          have hlkey : pyLower (pyStrip kv.1) ≠ [] := by
            intro hcon
            exact hk (List.map_eq_nil_iff.mp hcon)
          refine ⟨?_, ?_, ?_, ?_, ?_⟩
          · intro k v hv
            rw [dget_dassign] at hv
            split_ifs at hv with hkk
            · cases hv; exact hn
            · exact hinit.exact_nonempty _ _ hv
          · intro k v hv
            rw [dget_dassign] at hv
            split_ifs at hv with hkk
            · subst hkk
              exact ⟨normalizeCostNameList true kv.2, by rw [dget_dassign, if_pos rfl], hn⟩
            · obtain ⟨w, hw, hwne⟩ := hinit.exact_ci _ _ hv
              rw [dget_dassign]
              split_ifs with hll
              · exact ⟨normalizeCostNameList true kv.2, rfl, hn⟩
              · exact ⟨w, hw, hwne⟩
          · intro k w hw
            rw [dget_dassign] at hw
            split_ifs at hw with hkk
            · cases hw; exact hn
            · exact hinit.ci_nonempty _ _ hw
          · rw [dget_dassign, if_neg (fun h => hk h.symm)]
            exact hinit.exact_empty_key
          · rw [dget_dassign, if_neg (fun h => hlkey h.symm)]
            exact hinit.ci_empty_key

/-- Under the pairing invariant, a name-key attempt yields nothing
exactly when the ci map misses its lowercased stripped key. -/
theorem tryNameKey_eq_nil_iff (exact ci : DictS (List Str))
    (hinv : NameMapsInv exact ci) (k : Str) :
    tryNameKey exact ci k = [] ↔ dget ci (pyLower (pyStrip k)) = none := by
  unfold tryNameKey
  cases he : dget exact (pyStrip k) with
  | some v =>
      have hvne := hinv.exact_nonempty _ _ he
      obtain ⟨w, hw, hwne⟩ := hinv.exact_ci _ _ he
      simp [he, hvne, hw, hwne]
  | none =>
      simp only [he, Option.getD_none, if_pos rfl]
      cases hc : dget ci (pyLower (pyStrip k)) with
      | none => simp [hc]
      | some w =>
          have hwne := hinv.ci_nonempty _ _ hc
          simp [hc, hwne]

/-- The cons unfolding of the per-key loop in terms of `tryNameKey`. -/
theorem resolveKaplamaByName_cons (exact ci : DictS (List Str)) (seen : List Str)
    (k : Str) (ks : List Str) :
    resolveKaplamaByName exact ci seen (k :: ks)
      = if pyStrip k = [] then resolveKaplamaByName exact ci seen ks
        else if pyLower (pyStrip k) ∈ seen then resolveKaplamaByName exact ci seen ks
        else if tryNameKey exact ci k = []
          then resolveKaplamaByName exact ci (pyLower (pyStrip k) :: seen) ks
          else tryNameKey exact ci k := by
  simp only [resolveKaplamaByName, tryNameKey]

/-- Dedup transparency: under the pairing invariant, the seen-set loop
computes the plain ordered first-match chain, provided every seen key is
known to miss the ci map. -/
theorem resolveByName_eq_chain (exact ci : DictS (List Str))
    (hinv : NameMapsInv exact ci) :
    ∀ (keys seen : List Str),
      (∀ lk ∈ seen, dget ci lk = none) →
      resolveKaplamaByName exact ci seen keys
        = firstNonEmpty (keys.map (tryNameKey exact ci)) := by
  intro keys
  induction keys with
  | nil => intro seen hseen; rfl
  | cons k ks ih =>
      intro seen hseen
      rw [resolveKaplamaByName_cons]
      simp only [List.map_cons, firstNonEmpty]
      by_cases hnk : pyStrip k = []
      · have ht : tryNameKey exact ci k = [] := by
          unfold tryNameKey
          rw [hnk]
          simp [hinv.exact_empty_key, show pyLower [] = [] from rfl, hinv.ci_empty_key]
        rw [if_pos hnk, if_pos ht]
        exact ih seen hseen
      · rw [if_neg hnk]
        by_cases hlk : pyLower (pyStrip k) ∈ seen
        · have hci : dget ci (pyLower (pyStrip k)) = none := hseen _ hlk
          have ht : tryNameKey exact ci k = [] :=
            (tryNameKey_eq_nil_iff _ _ hinv k).mpr hci
          rw [if_pos hlk, if_pos ht]
          exact ih seen hseen
        · rw [if_neg hlk]
          by_cases ht : tryNameKey exact ci k = []
          · have hci : dget ci (pyLower (pyStrip k)) = none :=
              (tryNameKey_eq_nil_iff _ _ hinv k).mp ht
            rw [if_pos ht, if_pos ht]
            refine ih _ (fun l hl => ?_)
            rcases List.mem_cons.mp hl with h | h
            · rw [h]; exact hci
            · exact hseen _ h
          · rw [if_neg ht, if_neg ht]

/-- The executor's inline size lookup equals `trySizeKey`. -/
theorem sizeLookup_eq_trySizeKey (m : DictS (List Str)) (size : Str) :
    (if (dget m size).getD [] ≠ [] then (dget m size).getD []
     else (dget m (strOf "*")).getD []) = trySizeKey m size := by
  unfold trySizeKey
  by_cases h : (dget m size).getD [] = [] <;> simp [h]

/-- C4 (amended): for every request, the coating resolution tries, in
order, the (child-name + detected-tier) compound key, the (child-name +
raw variation-color) key, and the bare child-name key, each
case-sensitively and then case-insensitively against `kaplama_name_map`
(first nonempty match wins); if none matches, the size-keyed fallback is
consulted with the exact size then the wildcard `"*"` — using
`kaplama_map` when it is nonempty, no fallback at all when a (nonempty)
`kaplama_name_map` was supplied but `kaplama_map` is empty, and the
legacy `cost_map`-as-coating fallback only when both kaplama maps are
empty; a child with an empty resolution is skipped when
`allow_missing_kaplama` is false and proceeds with no coating costs when
it is true. -/
theorem c4_kaplama_resolution_amended :
    (∀ (ctx : InheritCtx) (childName variationColor size : Str),
      resolveKaplamaNames (prepareCtx ctx) childName variationColor size
        = kaplamaResolveAmended (prepareCtx ctx) childName variationColor size) ∧
    (∀ (env : ExecEnv) (ctx : InheritCtx) (child : ChildRow) (name : Str),
      resolveKargoName (prepareCtx ctx) (childSize child) = some name →
      resolveKaplamaNames (prepareCtx ctx) (pyStrip (child.child_name.getD []))
          (pyStrip (child.variation_color.getD [])) (childSize child) = [] →
      ¬ (prepareCtx ctx).allow_missing_kaplama →
      processChild env (prepareCtx ctx) child
        = ChildOutcome.skip
            ⟨child.child_sku, childSize child, strOf "no kaplama mapping"⟩) := by
  have hfall : ∀ pc : PreparedCtx, ∀ size : Str,
      (if (dget
            (if pc.kaplama_map_by_size ≠ [] then pc.kaplama_map_by_size
             else if pc.kaplama_name_map_exact ≠ [] then []
             else pc.kaplama_fallback_from_cost_map) size).getD [] ≠ [] then
         (dget
            (if pc.kaplama_map_by_size ≠ [] then pc.kaplama_map_by_size
             else if pc.kaplama_name_map_exact ≠ [] then []
             else pc.kaplama_fallback_from_cost_map) size).getD []
       else
         (dget
            (if pc.kaplama_map_by_size ≠ [] then pc.kaplama_map_by_size
             else if pc.kaplama_name_map_exact ≠ [] then []
             else pc.kaplama_fallback_from_cost_map) (strOf "*")).getD [])
      = (if pc.kaplama_map_by_size ≠ [] then trySizeKey pc.kaplama_map_by_size size
         else if pc.kaplama_name_map_exact ≠ [] then []
         else trySizeKey pc.kaplama_fallback_from_cost_map size) := by
    intro pc size
    by_cases h1 : pc.kaplama_map_by_size = []
    · by_cases h2 : pc.kaplama_name_map_exact = []
      · simp only [h1, h2, ne_eq, not_true_eq_false, if_false]
        by_cases hd : (dget pc.kaplama_fallback_from_cost_map size).getD [] = [] <;>
          simp [trySizeKey, hd]
      · simp only [h1, ne_eq, not_true_eq_false, if_false, h2, not_false_eq_true, if_true]
        simp [dget]
    · simp only [ne_eq, h1, not_false_eq_true, if_true]
      by_cases hd : (dget pc.kaplama_map_by_size size).getD [] = [] <;>
        simp [trySizeKey, hd]
  constructor
  · intro ctx childName variationColor size
    have hinv : NameMapsInv (prepareCtx ctx).kaplama_name_map_exact
        (prepareCtx ctx).kaplama_name_map_ci :=
      buildKaplamaNameMaps_inv ctx.kaplama_name_map
    simp only [resolveKaplamaNames, kaplamaResolveAmended]
    by_cases hc : childName = []
    · simp only [hc, ne_eq, not_true_eq_false, if_false, List.map_nil]
      simp only [firstNonEmpty, not_false_eq_true]
      exact hfall (prepareCtx ctx) size
    · have hchain := resolveByName_eq_chain _ _ hinv
        (kaplamaLookupKeys childName variationColor) [] (by intro l hl; cases hl)
      rw [if_pos hc, if_pos hc, hchain]
      by_cases hby : firstNonEmpty
          ((kaplamaLookupKeys childName variationColor).map
            (tryNameKey (prepareCtx ctx).kaplama_name_map_exact
              (prepareCtx ctx).kaplama_name_map_ci)) = []
      · rw [hby]
        simp only [ne_eq, not_true_eq_false, if_false]
        exact hfall (prepareCtx ctx) size
      · rw [if_pos hby, if_pos hby]
  · intro env ctx child name hkargo hempty hallow
    simp only [processChild, hkargo]
    rw [if_pos ⟨hempty, hallow⟩]

/-- Setting the cargo fields twice keeps only the last tuple. -/
theorem setCargo_setCargo (p : Product) (u u' : ChildUpdate) :
    setCargoFields (setCargoFields p u) u' = setCargoFields p u' := rfl

/-- Row application preserves the children-query projection, the grouping
key and the activity flag. -/
theorem rowApply_childView (us : List ChildUpdate) :
    ∀ p : Product, (rowApply us p).toChildRow = p.toChildRow ∧
      (rowApply us p).parent_name = p.parent_name ∧
      (rowApply us p).is_active = p.is_active ∧
      (rowApply us p).child_sku = p.child_sku := by
  induction us with
  | nil => intro p; exact ⟨rfl, rfl, rfl, rfl⟩
  | cons u us ih =>
      intro p
      have key : rowApply (u :: us) p
          = rowApply us (if p.child_sku = u.child_sku then setCargoFields p u else p) := rfl
      rw [key]
      obtain ⟨h1, h2, h3, h4⟩ :=
        ih (if p.child_sku = u.child_sku then setCargoFields p u else p)
      rw [h1, h2, h3, h4]
      split_ifs <;> exact ⟨rfl, rfl, rfl, rfl⟩

/-- The children query is stable under the staged product updates. -/
theorem activeChildren_rowApply_map (us : List ChildUpdate) (parent : Str) :
    ∀ ps : List Product,
      activeChildren (ps.map (rowApply us)) parent = activeChildren ps parent := by
  intro ps
  induction ps with
  | nil => rfl
  | cons p ps ih =>
      obtain ⟨hrow, hpar, hact, _⟩ := rowApply_childView us p
      unfold activeChildren at ih ⊢
      simp only [List.map_cons, List.filter_cons]
      have hpred : (decide ((rowApply us p).parent_name = some parent ∧
              (rowApply us p).is_active = true))
          = decide (p.parent_name = some parent ∧ p.is_active = true) := by
        rw [hpar, hact]
      rw [hpred]
      split_ifs with hb
      · simp only [List.map_cons]
        rw [hrow, ih]
      · exact ih

/-- The last staged tuple matching a sku. -/
def lastMatch (us : List ChildUpdate) (sku : Str) : Option ChildUpdate :=
  match us with
  | [] => none
  | u :: rest =>
      match lastMatch rest sku with
      | some r => some r
      | none => if u.child_sku = sku then some u else none

/-- Row application keeps only the last matching tuple. -/
theorem rowApply_eq_lastMatch (us : List ChildUpdate) :
    ∀ p, rowApply us p = (lastMatch us p.child_sku).elim p (setCargoFields p) := by
  induction us with
  | nil => intro p; rfl
  | cons u us ih =>
      intro p
      show rowApply us (if p.child_sku = u.child_sku then setCargoFields p u else p) = _
      by_cases h : p.child_sku = u.child_sku
      · rw [if_pos h, ih]
        rw [show (setCargoFields p u).child_sku = p.child_sku from rfl]
        cases hl : lastMatch us p.child_sku with
        | some r =>
            rw [show lastMatch (u :: us) p.child_sku = some r from by
              simp [lastMatch, hl]]
            rfl
        | none =>
            rw [show lastMatch (u :: us) p.child_sku = some u from by
              simp [lastMatch, hl, h.symm]]
            rfl
      · rw [if_neg h, ih]
        have hne : ¬ u.child_sku = p.child_sku := fun hh => h hh.symm
        cases hl : lastMatch us p.child_sku with
        | some r =>
            rw [show lastMatch (u :: us) p.child_sku = some r from by
              simp [lastMatch, hl]]
        | none =>
            rw [show lastMatch (u :: us) p.child_sku = none from by
              simp [lastMatch, hl, hne]]

/-- Re-applying the same staged updates to a row changes nothing. -/
theorem rowApply_idem (us : List ChildUpdate) (p : Product) :
    rowApply us (rowApply us p) = rowApply us p := by
  have hsku : (rowApply us p).child_sku = p.child_sku := (rowApply_childView us p).2.2.2
  rw [rowApply_eq_lastMatch us (rowApply us p), hsku]
  cases hl : lastMatch us p.child_sku with
  | none =>
      rw [rowApply_eq_lastMatch us p, hl]
      rfl
  | some u =>
      rw [rowApply_eq_lastMatch us p, hl]
      rfl

/-- Re-applying the same staged product-update batch changes nothing. -/
theorem applyProductUpdates_idem (us : List ChildUpdate) (ps : List Product) :
    applyProductUpdates (applyProductUpdates ps us) us = applyProductUpdates ps us := by
  rw [applyProductUpdates_eq_map, applyProductUpdates_eq_map, List.map_map]
  rw [show rowApply us ∘ rowApply us = rowApply us from
    funext fun p => rowApply_idem us p]

/-- The last staged material quantity for a key. -/
def lastMatQ (ups : List (Str × Int × ℚ)) (s : Str) (i : Int) : Option ℚ :=
  match ups with
  | [] => none
  | u :: rest =>
      match lastMatQ rest s i with
      | some q => some q
      | none => if s = u.1 ∧ i = u.2.1 then some u.2.2 else none

/-- Material upserts keep the last staged quantity per key. -/
theorem applyMatUpserts_char (ups : List (Str × Int × ℚ)) :
    ∀ (m : MatState) (s : Str) (i : Int),
      applyMatUpserts m ups s i
        = match lastMatQ ups s i with
          | some q => some q
          | none => m s i := by
  induction ups with
  | nil => intro m s i; rfl
  | cons u rest ih =>
      intro m s i
      show applyMatUpserts
        (fun s' i' => if s' = u.1 ∧ i' = u.2.1 then some u.2.2 else m s' i') rest s i = _
      rw [ih]
      cases hl : lastMatQ rest s i with
      | some q => simp [lastMatQ, hl]
      | none =>
          simp only [lastMatQ, hl]
          by_cases hc : s = u.1 ∧ i = u.2.1 <;> simp [hc]

/-- Re-applying the same material upserts changes nothing. -/
theorem applyMatUpserts_idem (ups : List (Str × Int × ℚ)) (m : MatState) :
    applyMatUpserts (applyMatUpserts m ups) ups = applyMatUpserts m ups := by
  funext s i
  rw [applyMatUpserts_char, applyMatUpserts_char]
  cases hl : lastMatQ ups s i with
  | none => simp [hl, applyMatUpserts_char]
  | some q => simp [hl]

/-- Cost upserts set every staged key's assigned flag to true. -/
theorem applyCostUpserts_char (ups : List (Str × Str)) :
    ∀ (c : CostState) (s n : Str),
      applyCostUpserts c ups s n
        = if ups.any (fun u => decide (s = u.1 ∧ n = u.2)) then some true else c s n := by
  induction ups with
  | nil => intro c s n; rfl
  | cons u rest ih =>
      intro c s n
      show applyCostUpserts
        (fun s' n' => if s' = u.1 ∧ n' = u.2 then some true else c s' n') rest s n = _
      rw [ih]
      by_cases h1 : rest.any (fun u => decide (s = u.1 ∧ n = u.2)) = true
      · rw [if_pos h1, if_pos (by rw [List.any_cons, h1, Bool.or_true])]
      · rw [if_neg h1]
        by_cases h2 : s = u.1 ∧ n = u.2
        · rw [if_pos h2, if_pos (by rw [List.any_cons, decide_eq_true h2, Bool.true_or])]
        · rw [if_neg h2, if_neg (by
            rw [List.any_cons, decide_eq_false h2, Bool.false_or]
            exact h1)]

/-- Re-applying the same cost upserts changes nothing. -/
theorem applyCostUpserts_idem (ups : List (Str × Str)) (c : CostState) :
    applyCostUpserts (applyCostUpserts c ups) ups = applyCostUpserts c ups := by
  funext s n
  rw [applyCostUpserts_char, applyCostUpserts_char]
  by_cases h : ups.any (fun u => decide (s = u.1 ∧ n = u.2)) = true
  · rw [if_pos h, if_pos h]
  · rw [if_neg h]

/-- A second run with identical inputs against the once-updated store
reproduces the same store and summary. -/
theorem runInherit_idem (env : ExecEnv) (ctx : InheritCtx) (store : Store)
    (s1 : Store) (r1 : InheritResult)
    (h : runInherit env ctx store = Except.ok (s1, r1)) :
    runInherit env ctx s1 = Except.ok (s1, r1) := by
  simp only [runInherit] at h
  split at h
  · exact absurd h (by simp)
  · rename_i hne
    rw [Except.ok.injEq, Prod.mk.injEq] at h
    obtain ⟨h1, h2⟩ := h
    subst h1
    subst h2
    have hactive : ∀ us, activeChildren (applyProductUpdates store.products us)
        ctx.parent_name = activeChildren store.products ctx.parent_name := by
      intro us
      rw [applyProductUpdates_eq_map]
      exact activeChildren_rowApply_map us ctx.parent_name store.products
    simp only [runInherit]
    rw [hactive, if_neg hne]
    rw [applyProductUpdates_idem, applyMatUpserts_idem, applyCostUpserts_idem]

/-- C5: `apply_inheritance` is idempotent on the store: a second run with
identical inputs against the once-updated store returns the very same
store (product rows, material rows and cost rows, upserted by
`(sku, material_id)` and `(sku, cost_name)`, never appended) and the very
same summary, `children_updated` included. -/
theorem c5_idempotent (env : ExecEnv) (ctx : InheritCtx) (store : Store)
    (s1 : Store) (r1 : InheritResult)
    (h : runInherit env ctx store = Except.ok (s1, r1)) :
    runInherit env ctx s1 = Except.ok (s1, r1) :=
  runInherit_idem env ctx store s1 r1 h

/-- A request exercising real writes: a cargo mapping, a weight, a manual
material and both area-driven material ids. -/
def ctxW5 : InheritCtx :=
  ⟨strOf "P", [(strOf "S", strOf "M-1 Kargo")], [], [], true,
    [(strOf "S", 2)], [(7, 5)], some 11, some 12⟩

/-- An environment with a matching rate-table row and resolved auto
materials. -/
def envW5 : ExecEnv :=
  ⟨[(strOf "M-1", ⟨some 20, some 30, some 40⟩)], some 3, some 4, 250⟩

/-- A store whose single child carries an area, so every staged write
path fires. -/
def storeW5 : Store :=
  ⟨[{ prodW1 with alan_m2 := some 2 }], fun _ _ => none, fun _ _ => none⟩

/-- Witness for C5: the concrete run executes, and re-running it on the
updated store reproduces the same store and summary. -/
theorem c5_idempotent_witness :
    ∃ s1 r1, runInherit envW5 ctxW5 storeW5 = Except.ok (s1, r1) ∧
      runInherit envW5 ctxW5 s1 = Except.ok (s1, r1) := by
  cases hrun : runInherit envW5 ctxW5 storeW5 with
  | error e =>
      have hne : ¬ activeChildren storeW5.products ctxW5.parent_name = [] := by decide
      simp only [runInherit] at hrun
      rw [if_neg hne] at hrun
      exact Except.noConfusion hrun
  | ok pr =>
      obtain ⟨s1, r1⟩ := pr
      exact ⟨s1, r1, rfl, c5_idempotent _ _ _ _ _ hrun⟩

/-- A request carrying a nonempty `kaplama_name_map` that matches no
child, an empty `kaplama_map`, and a `cost_map` entry for size "S". -/
def ctxC4 : InheritCtx :=
  ⟨strOf "P", [(strOf "S", strOf "Gold Kaplama")], [],
    [(strOf "Zzz", CostVal.str (strOf "X"))], false,
    [(strOf "S", 1)], [], none, none⟩

/-- The child the C4 scenario processes. -/
def childC4 : ChildRow :=
  ⟨strOf "SKU1", some (strOf "Foo"), none, some (strOf "S"), none⟩

/-- C4 counterexample: with a nonempty `kaplama_name_map` that matches
nothing and an empty `kaplama_map`, the claim's chain would fall back to
the `cost_map` coating entry ("Gold Kaplama"), but the code consults no
fallback at all and skips the child with "no kaplama mapping". -/
theorem c4_counterexample :
    kaplamaResolveClaimed (prepareCtx ctxC4) (strOf "Foo") [] (strOf "S")
        = [strOf "Gold Kaplama"] ∧
    resolveKaplamaNames (prepareCtx ctxC4) (strOf "Foo") [] (strOf "S") = [] ∧
    processChild envW1 (prepareCtx ctxC4) childC4
        = ChildOutcome.skip ⟨strOf "SKU1", strOf "S", strOf "no kaplama mapping"⟩ := by
  exact ⟨by decide, by decide, by decide⟩

/-- Witness for C4: the skip conjunct of the amended theorem applied to
the concrete scenario, plus a concrete instance of the resolver
equality. -/
theorem c4_kaplama_resolution_amended_witness :
    processChild envW1 (prepareCtx ctxC4) childC4
        = ChildOutcome.skip ⟨strOf "SKU1", strOf "S", strOf "no kaplama mapping"⟩ ∧
    resolveKaplamaNames (prepareCtx ctxC4) (strOf "Foo") [] (strOf "S")
        = kaplamaResolveAmended (prepareCtx ctxC4) (strOf "Foo") [] (strOf "S") := by
  refine ⟨c4_kaplama_resolution_amended.2 envW1 ctxC4 childC4 (strOf "Gold Kaplama")
      (by decide) (by decide) (by decide),
    c4_kaplama_resolution_amended.1 ctxC4 (strOf "Foo") [] (strOf "S")⟩

/-- C10 (amended): when the three resolutions succeed, the child is
updated regardless of the cargo-code derivation; when the resolved cargo
cost name yields no normalizable code, or the normalized code is absent
from the cargo rate table, the box dimensions are written as null and the
desi is computed from the weight alone — but `kargo_kodu` is written as
the normalized code itself (null only when non-normalizable, not when
merely absent from the table). -/
theorem c10_cargo_code_fallback (env : ExecEnv) (pc : PreparedCtx) (child : ChildRow)
    (name : Str) (w : ℚ)
    (h1 : resolveKargoName pc (childSize child) = some name)
    (h2 : ¬(resolveKaplamaNames pc (pyStrip (child.child_name.getD []))
        (pyStrip (child.variation_color.getD [])) (childSize child) = [] ∧
        ¬ pc.allow_missing_kaplama))
    (h3 : resolveWeight pc (childSize child) = some w)
    (h4 : ¬ w < 0)
    (h5 : match normalizeKargoCode (some name) with
          | none => True
          | some code => dget env.kargoLookup code = none) :
    ∃ u, processChild env pc child = ChildOutcome.update u ∧
      u.kargo_kodu = normalizeKargoCode (some name) ∧
      u.kargo_en = none ∧ u.kargo_boy = none ∧ u.kargo_yukseklik = none ∧
      u.kargo_desi = some (ceilToHalf w) ∧
      u.kargo_agirlik = pyRound6 w := by
  cases hcode : normalizeKargoCode (some name) with
  | none =>
      have heval : processChild env pc child = ChildOutcome.update
          ⟨child.child_sku, child.alan_m2, childSize child, name,
            resolveKaplamaNames pc (pyStrip (child.child_name.getD []))
              (pyStrip (child.variation_color.getD [])) (childSize child),
            none, none, none, none, pyRound6 w,
            calculateKargoDesi none none none (some w)⟩ := by
        simp only [processChild, h1, h3, hcode]
        rw [if_neg h2, if_neg h4]
      exact ⟨_, heval, rfl, rfl, rfl, rfl, rfl, rfl⟩
  | some code =>
      rw [hcode] at h5
      have heval : processChild env pc child = ChildOutcome.update
          ⟨child.child_sku, child.alan_m2, childSize child, name,
            resolveKaplamaNames pc (pyStrip (child.child_name.getD []))
              (pyStrip (child.variation_color.getD [])) (childSize child),
            some code, none, none, none, pyRound6 w,
            calculateKargoDesi none none none (some w)⟩ := by
        simp only [processChild, h1, h3, hcode, h5]
        rw [if_neg h2, if_neg h4]
      exact ⟨_, heval, rfl, rfl, rfl, rfl, rfl, rfl⟩

/-- A rate table holding only `M-1`. -/
def envC10 : ExecEnv := ⟨[(strOf "M-1", ⟨some 10, some 10, some 10⟩)], none, none, 250⟩

/-- A request whose cargo cost name "M-99" normalizes to a code absent
from the table. -/
def ctxC10 : InheritCtx :=
  ⟨strOf "P", [(strOf "S", strOf "M-99")], [], [], true,
    [(strOf "S", 1)], [], none, none⟩

/-- The child the C10 scenario processes. -/
def childC10 : ChildRow :=
  ⟨strOf "SKU1", some (strOf "Lamp"), none, some (strOf "S"), none⟩

/-- C10 counterexample: with cost name "M-99" normalizing to a code that
is absent from the rate table, the child is still updated and its desi
comes from the weight alone, but `kargo_kodu` is written as "M-99" — not
as null, as the claim states. -/
theorem c10_counterexample :
    dget envC10.kargoLookup (strOf "M-99") = none ∧
    ∃ u, processChild envC10 (prepareCtx ctxC10) childC10 = ChildOutcome.update u ∧
      u.kargo_kodu = some (strOf "M-99") ∧ u.kargo_en = none ∧ u.kargo_boy = none ∧
      u.kargo_yukseklik = none ∧ u.kargo_desi = some (ceilToHalf 1) := by
  exact ⟨by decide, _, rfl, rfl, rfl, rfl, rfl, rfl⟩

/-- Witness for C10: the amended theorem applied to the concrete
missing-code scenario. -/
theorem c10_cargo_code_fallback_witness :
    ∃ u, processChild envC10 (prepareCtx ctxC10) childC10 = ChildOutcome.update u ∧
      u.kargo_kodu = normalizeKargoCode (some (strOf "M-99")) ∧
      u.kargo_en = none ∧ u.kargo_boy = none ∧ u.kargo_yukseklik = none ∧
      u.kargo_desi = some (ceilToHalf 1) ∧ u.kargo_agirlik = pyRound6 1 := by
  exact c10_cargo_code_fallback envC10 (prepareCtx ctxC10) childC10 (strOf "M-99") 1
    (by rfl) (by decide) (by rfl) (by decide)
    (show dget envC10.kargoLookup (strOf "M-99") = none by decide)

/-- C6: `calculate_kargo_desi` returns null volumetric desi unless all of
en, boy, yukseklik are present and positive, in which case volumetric is
`en*boy*yukseklik/5000`; the final result is `ceil_to_half` of the max of
volumetric and weight when both are known, of the single known one when
only one is known, and null when neither is known; in particular
`compute_desi(50, 40, 30, agirlik=5) = 12.0`. -/
theorem c6_compute_desi :
    (∀ en boy yukseklik agirlik : Option ℚ,
        calculateKargoDesi en boy yukseklik agirlik
          = desiSpecChain en boy yukseklik agirlik) ∧
    calculateKargoDesi (some 50) (some 40) (some 30) (some 5) = some 12 := by
  constructor
  · intro en boy yukseklik agirlik
    unfold calculateKargoDesi desiSpecChain
    cases en <;> cases boy <;> cases yukseklik <;> cases agirlik <;>
      simp <;> split_ifs <;> rfl
  · have hvol : (50 : ℚ) * 40 * 30 / 5000 = 12 := by norm_num
    have h1 : calculateKargoDesi (some 50) (some 40) (some 30) (some 5)
        = some (ceilToHalf (max ((50 : ℚ) * 40 * 30 / 5000) 5)) := by
      unfold calculateKargoDesi
      norm_num
    rw [h1, hvol, max_eq_left (by norm_num : (5 : ℚ) ≤ 12),
      ceilToHalf_eq_of 12 24 (by norm_num [inheritEps]) (by norm_num [inheritEps])]
    norm_num

/-- C7 counterexample: `ceil_to_half` is not upward for every input — at
`v = 1 + 10⁻¹⁰` the epsilon inside `ceil(v*2 - 1e-9)/2` pulls the result
down to `1 < v`, refuting `ceil_to_half(v) ≥ v`. -/
theorem c7_counterexample :
    ceilToHalf (1 + 1/10000000000) < 1 + 1/10000000000 := by
  rw [ceilToHalf_eq_of (1 + 1/10000000000) 2 (by norm_num [inheritEps])
    (by norm_num [inheritEps])]
  norm_num

/-- C7 (amended): for all v, `ceil_to_half(v)` is a multiple of 0.5,
`ceil_to_half(v) ≥ v − ε/2` with `ε = 10⁻⁹` (the unamended `≥ v` fails
only within ε/2 below a half-multiple), and `ceil_to_half(v) − 0.5 < v`;
moreover `ceil_to_half(1.3) = 1.5`, `ceil_to_half(2.0) = 2.0`,
`ceil_to_half(0) = 0`. -/
theorem c7_ceil_to_half_amended :
    (∀ v : ℚ, (∃ n : ℤ, ceilToHalf v = n / 2) ∧
      v - inheritEps / 2 ≤ ceilToHalf v ∧ ceilToHalf v - 1/2 < v) ∧
    ceilToHalf (13/10) = 3/2 ∧ ceilToHalf 2 = 2 ∧ ceilToHalf 0 = 0 := by
  refine ⟨fun v => ⟨⟨⌈v * 2 - inheritEps⌉, rfl⟩, ?_, ?_⟩, ?_, ?_, ?_⟩
  · have h := Int.le_ceil (v * 2 - inheritEps)
    unfold ceilToHalf
    linarith
  · have h := Int.ceil_lt_add_one (v * 2 - inheritEps)
    have heps : (0 : ℚ) < inheritEps := by norm_num [inheritEps]
    unfold ceilToHalf
    linarith
  · rw [ceilToHalf_eq_of (13/10) 3 (by norm_num [inheritEps]) (by norm_num [inheritEps])]
    norm_num
  · rw [ceilToHalf_eq_of 2 4 (by norm_num [inheritEps]) (by norm_num [inheritEps])]
    norm_num
  · rw [ceilToHalf_eq_of 0 0 (by norm_num [inheritEps]) (by norm_num [inheritEps])]
    norm_num

/-- C8 counterexample: `normalize_kargo_code("m8") = None` — the regex
`([A-Z])\s*-\s*(\d+[A-Z]?)` requires a literal dash, so the claimed
variant "m8" (letter-digit pair without separator) is not mapped to
"M-8". -/
theorem c8_counterexample : normalizeKargoCode (some (strOf "m8")) = none := by
  decide

/-- C8 (amended): `normalize_code` maps every input containing a
letter-DASH-digits pattern — with optional whitespace around the dash and
any letter case, e.g. "m - 8", "M-8", " m-8 " — to the canonical form
"M-8", and returns null exactly when no letter-dash-digit pattern is
present; in particular "m8" (no dash) yields null. -/
theorem c8_normalize_code_amended :
    normalizeKargoCode (some (strOf "m - 8")) = some (strOf "M-8") ∧
    normalizeKargoCode (some (strOf "M-8")) = some (strOf "M-8") ∧
    normalizeKargoCode (some (strOf " m-8 ")) = some (strOf "M-8") ∧
    normalizeKargoCode (some (strOf "m8")) = none ∧
    (∀ s : Str, normalizeKargoCode (some s) = none ↔ hasKargoPattern (pyUpper s) = false) := by
  refine ⟨by decide, by decide, by decide, by decide, fun s => ?_⟩
  unfold normalizeKargoCode
  by_cases hs : s = []
  · subst hs
    simp [pyUpper, hasKargoPattern]
  · simp only [hs, if_false, if_neg]
    have hiff := kargoSearch_isSome (pyUpper s)
    cases hk : kargoSearch (pyUpper s) with
    | none =>
        rw [hk] at hiff
        simp at hiff
        simp [← hiff]
    | some m =>
        rw [hk] at hiff
        simp at hiff
        simp [← hiff]

/-- Finding an id after an id-preserving in-place update of the approval
table returns the updated row. -/
theorem findApproval_map_of_found (st : SysState) (aid : Nat)
    (f : ApprovalRow → ApprovalRow) (hf : ∀ r, (f r).id = r.id)
    (row : ApprovalRow) (hfind : findApproval st aid = some row) :
    List.find? (fun r => decide (r.id = aid))
        (st.approvals.map (fun r => if r.id = aid then f r else r)) = some (f row) := by
  rw [List.find?_map]
  have hp : ((fun r : ApprovalRow => decide (r.id = aid)) ∘
      (fun r => if r.id = aid then f r else r))
      = (fun r : ApprovalRow => decide (r.id = aid)) := by
    funext r
    by_cases h : r.id = aid <;> simp [h, hf]
  rw [hp]
  unfold findApproval at hfind
  rw [hfind, Option.map_some']
  have h2 := List.find?_some hfind
  simp only [decide_eq_true_eq] at h2
  rw [if_pos h2]

/-- The Python-truthiness of a nonzero id. -/
theorem truthyNat_some (aid : Nat) (h : aid ≠ 0) : truthyNat (some aid) = some aid := by
  simp [truthyNat, h]

/-- C2 (amended): the admin review moves a request from `pending` to
`approved` or `rejected` only; a successful non-admin execution through
an approval id stamps the row's `executed_at`/`execution_result` but
leaves its `status` — still "approved" — unchanged, so re-submitting the
identical payload with the same approval id passes the gate again and
executes the inheritance a second time (execution is idempotent on the
store, but it is not exactly-once and no terminal `executed` status
exists). -/
theorem c2_approval_lifecycle_amended :
    (∀ (st : SysState) (admin : UserT) (aid : Nat) (approve : Bool)
        (note : Option Str) (st' : SysState) (ns : Str),
      reviewApproval st admin aid approve note = (st', ReviewOutcome.ok ns) →
      ∃ row, findApproval st aid = some row ∧
        pyLower row.status = strOf "pending" ∧
        ns = (if approve then strOf "approved" else strOf "rejected") ∧
        ∃ row', findApproval st' aid = some row' ∧ row'.status = ns ∧
          row'.payload = row.payload) ∧
    (∀ (env : ExecEnv) (st : SysState) (user : UserT) (ctx : InheritCtx)
        (aid : Nat) (st' : SysState) (res : InheritResult),
      user.role ≠ strOf "admin" →
      submitInherit true env st user ctx (some aid) = (st', SubmitOutcome.ok res) →
      ∃ row, findApproval st aid = some row ∧
        pyLower (pyStrip row.status) = strOf "approved" ∧
        ∃ row', findApproval st' aid = some row' ∧
          row'.status = row.status ∧ row'.executed_at = true ∧
          (submitInherit true env st' user ctx (some aid)).2.isExecuted = true) := by
  constructor
  · intro st admin aid approve note st' ns h
    simp only [reviewApproval] at h
    split at h
    · rw [Prod.mk.injEq] at h
      exact ReviewOutcome.noConfusion h.2
    · cases hfind : findApproval st aid with
      | none =>
          rw [hfind] at h
          dsimp only at h
          rw [Prod.mk.injEq] at h
          exact ReviewOutcome.noConfusion h.2
      | some row =>
          rw [hfind] at h
          dsimp only at h
          by_cases hpending : pyLower row.status ≠ strOf "pending"
          · rw [if_pos hpending, Prod.mk.injEq] at h
            exact ReviewOutcome.noConfusion h.2
          · rw [if_neg hpending, Prod.mk.injEq] at h
            obtain ⟨hst, hns⟩ := h
            have hns' : ns = (if approve then strOf "approved" else strOf "rejected") := by
              injection hns with h'
              exact h'.symm
            subst hst
            have hmap := findApproval_map_of_found st aid
              (fun r => { r with
                status := if approve then strOf "approved" else strOf "rejected",
                reviewed_by := some admin.id,
                review_note := truthyStr (some (pyStrip (note.getD []))) })
              (fun r => rfl) row hfind
            refine ⟨row, rfl, not_not.mp hpending, hns', ?_⟩
            refine ⟨_, hmap, ?_, rfl⟩
            rw [hns']
  · intro env st user ctx aid st' res hrole h
    simp only [submitInherit] at h
    rw [if_pos (⟨trivial, hrole⟩ : True ∧ ¬ user.role = strOf "admin")] at h
    by_cases haid : aid = 0
    · rw [show truthyNat (some aid) = none from by simp [truthyNat, haid]] at h
      dsimp only at h
      rw [Prod.mk.injEq] at h
      exact SubmitOutcome.noConfusion h.2
    · rw [truthyNat_some aid haid] at h
      dsimp only at h
      cases hfind : findApproval st aid with
      | none =>
          rw [hfind] at h
          dsimp only at h
          rw [Prod.mk.injEq] at h
          exact SubmitOutcome.noConfusion h.2
      | some row =>
          rw [hfind] at h
          dsimp only at h
          by_cases htype : pyStrip row.request_type ≠ strOf "inherit.apply"
          · rw [if_pos htype, Prod.mk.injEq] at h
            exact SubmitOutcome.noConfusion h.2
          · rw [if_neg htype] at h
            by_cases hstat : pyLower (pyStrip row.status) ≠ strOf "approved"
            · rw [if_pos hstat, Prod.mk.injEq] at h
              exact SubmitOutcome.noConfusion h.2
            · rw [if_neg hstat] at h
              by_cases hown : (match row.requested_by with
                  | some rb => decide (rb ≠ 0 ∧ rb ≠ user.id)
                  | none => false) = true
              · rw [if_pos hown, Prod.mk.injEq] at h
                exact SubmitOutcome.noConfusion h.2
              · rw [if_neg hown] at h
                by_cases hpay : row.payload ≠ ctx
                · rw [if_pos hpay, Prod.mk.injEq] at h
                  exact SubmitOutcome.noConfusion h.2
                · rw [if_neg hpay] at h
                  simp only [executeAndStamp] at h
                  cases hrun : runInherit env ctx st.store with
                  | error e =>
                      cases e
                      rw [hrun] at h
                      dsimp only at h
                      rw [Prod.mk.injEq] at h
                      exact SubmitOutcome.noConfusion h.2
                  | ok pr =>
                      obtain ⟨store1, res1⟩ := pr
                      rw [hrun] at h
                      dsimp only at h
                      rw [truthyNat_some aid haid] at h
                      dsimp only at h
                      rw [Prod.mk.injEq] at h
                      obtain ⟨hst, _⟩ := h
                      refine ⟨row, rfl, not_not.mp hstat, ?_⟩
                      have hfind1 : findApproval { st with store := store1 } aid = some row :=
                        hfind
                      have hmap : findApproval
                          (stampApproval { st with store := store1 } aid res1 ctx.parent_name)
                          aid = some (stampRow res1 ctx.parent_name row) :=
                        findApproval_map_of_found { st with store := store1 } aid
                          (stampRow res1 ctx.parent_name) (fun r => rfl) row hfind1
                      rw [← hst]
                      refine ⟨_, hmap, rfl, rfl, ?_⟩
                      have hidem := runInherit_idem env ctx st.store store1 res1 hrun
                      simp only [submitInherit]
                      rw [if_pos (⟨trivial, hrole⟩ : True ∧ ¬ user.role = strOf "admin")]
                      rw [truthyNat_some aid haid]
                      dsimp only
                      rw [hmap]
                      dsimp only
                      rw [if_neg (show ¬ pyStrip (stampRow res1 ctx.parent_name row).request_type
                            ≠ strOf "inherit.apply" from htype),
                        if_neg (show ¬ pyLower (pyStrip (stampRow res1 ctx.parent_name row).status)
                            ≠ strOf "approved" from hstat),
                        if_neg (show ¬ (match (stampRow res1 ctx.parent_name row).requested_by with
                            | some rb => decide (rb ≠ 0 ∧ rb ≠ user.id)
                            | none => false) = true from hown),
                        if_neg (show ¬ (stampRow res1 ctx.parent_name row).payload ≠ ctx from hpay)]
                      simp only [executeAndStamp]
                      rw [show (stampApproval { st with store := store1 } aid res1
                          ctx.parent_name).store = store1 from rfl]
                      rw [hidem]
                      rfl

/-- A non-admin caller owning approval record 1. -/
def userC2 : UserT := ⟨42, strOf "user"⟩

/-- An already-approved `inherit.apply` record for `ctxW1`, owned by the
caller, not yet executed. -/
def rowC2 : ApprovalRow :=
  { id := 1, request_type := strOf "inherit.apply", target := some (strOf "P"),
    payload := ctxW1, status := strOf "approved", requested_by := some 42,
    reviewed_by := some 1, review_note := none, executed_at := false,
    execution_result := none }

/-- System state before the first execution. -/
def stC2 : SysState := ⟨[rowC2], 2, storeW1⟩

/-- The approval row after the first execution's stamp. -/
def rowC2x : ApprovalRow :=
  { rowC2 with executed_at := true, execution_result := some (0, 1, strOf "P") }

/-- System state after the first execution. -/
def stC2x : SysState := ⟨[rowC2x], 2, storeW1⟩

/-- C2 counterexample: after a non-admin submission with an approved
approval id has executed once (stamping the row), the row's status is
still "approved" — not a terminal executed state — and re-submitting the
identical payload with the same approval id executes again instead of
being refused. -/
theorem c2_counterexample :
    (submitInherit true envW1 stC2 userC2 ctxW1 (some 1)).2.isExecuted = true ∧
    ((findApproval (submitInherit true envW1 stC2 userC2 ctxW1 (some 1)).1 1).map
        (fun r => r.status)) = some (strOf "approved") ∧
    ((findApproval (submitInherit true envW1 stC2 userC2 ctxW1 (some 1)).1 1).map
        (fun r => r.executed_at)) = some true ∧
    (submitInherit true envW1
        (submitInherit true envW1 stC2 userC2 ctxW1 (some 1)).1 userC2 ctxW1
        (some 1)).2.isExecuted = true := by
  exact ⟨rfl, by decide, by decide, rfl⟩

/-- Witness for C2: the amended theorem applied to the concrete
approved-then-executed state. -/
theorem c2_approval_lifecycle_amended_witness :
    submitInherit true envW1 stC2 userC2 ctxW1 (some 1)
        = (stC2x, SubmitOutcome.ok resW1) ∧
    ∃ row, findApproval stC2 1 = some row ∧
      pyLower (pyStrip row.status) = strOf "approved" ∧
      ∃ row', findApproval stC2x 1 = some row' ∧
        row'.status = row.status ∧ row'.executed_at = true ∧
        (submitInherit true envW1 stC2x userC2 ctxW1 (some 1)).2.isExecuted = true := by
  have hsub : submitInherit true envW1 stC2 userC2 ctxW1 (some 1)
      = (stC2x, SubmitOutcome.ok resW1) := by rfl
  exact ⟨hsub, c2_approval_lifecycle_amended.2 envW1 stC2 userC2 ctxW1 1 stC2x resW1
    (by decide) hsub⟩

/-- Earlier entries never hide a fresh row appended at the end. -/
theorem find?_append_of_none {α : Type} (p : α → Bool) :
    ∀ (l l2 : List α), (∀ r ∈ l, p r = false) →
      List.find? p (l ++ l2) = List.find? p l2 := by
  intro l
  induction l with
  | nil => intro l2 _; rfl
  | cons a l ih =>
      intro l2 hnone
      rw [List.cons_append, List.find?_cons_of_neg, ih]
      · intro r hr
        exact hnone r (List.mem_cons_of_mem a hr)
      · simp [hnone a (List.mem_cons_self a l)]

/-- C3: for a non-admin submission carrying an approval id, the
inheritance executes only when the referenced request exists, has
request type `inherit.apply`, status `approved`, an owner check that
passes (a populated `requested_by` must equal the caller's id — and the
gate's own record creation always populates it with the creator), and a
stored payload equal to the freshly submitted one (the stored column is
the deterministic serialization of the context, so structural equality
is byte equality of the serialized payloads); a submission whose payload
differs from the stored one is rejected with the approval-conflict error
and leaves the system state untouched. -/
theorem c3_approval_gate_checks :
    (∀ (env : ExecEnv) (st : SysState) (user : UserT) (ctx : InheritCtx)
        (aid : Nat) (st' : SysState) (out : SubmitOutcome),
      user.role ≠ strOf "admin" →
      submitInherit true env st user ctx (some aid) = (st', out) →
      out.isExecuted = true →
      ∃ row, findApproval st aid = some row ∧
        pyStrip row.request_type = strOf "inherit.apply" ∧
        pyLower (pyStrip row.status) = strOf "approved" ∧
        (∀ rb, row.requested_by = some rb → rb ≠ 0 → rb = user.id) ∧
        row.payload = ctx) ∧
    (∀ (st : SysState) (rtype : Str) (target : Option Str) (payload : InheritCtx)
        (user : UserT),
      (∀ r ∈ st.approvals, r.id < st.next_id) →
      ∃ row, findApproval (createApprovalRequest st rtype target payload user).1
          (createApprovalRequest st rtype target payload user).2 = some row ∧
        row.requested_by = some user.id ∧ row.payload = payload ∧
        row.status = strOf "pending") ∧
    (∀ (env : ExecEnv) (st : SysState) (user : UserT) (ctx : InheritCtx)
        (aid : Nat) (row : ApprovalRow),
      user.role ≠ strOf "admin" → aid ≠ 0 →
      findApproval st aid = some row →
      pyStrip row.request_type = strOf "inherit.apply" →
      pyLower (pyStrip row.status) = strOf "approved" →
      ¬ (match row.requested_by with
         | some rb => decide (rb ≠ 0 ∧ rb ≠ user.id)
         | none => false) = true →
      row.payload ≠ ctx →
      submitInherit true env st user ctx (some aid)
        = (st, SubmitOutcome.httpError 400
            (strOf "Onay sonrası payload değişmiş. Yeniden onay isteği açın."))) := by
  refine ⟨?_, ?_, ?_⟩
  · intro env st user ctx aid st' out hrole h hexec
    simp only [submitInherit] at h
    rw [if_pos (⟨trivial, hrole⟩ : True ∧ ¬ user.role = strOf "admin")] at h
    by_cases haid : aid = 0
    · rw [show truthyNat (some aid) = none from by simp [truthyNat, haid]] at h
      dsimp only at h
      rw [Prod.mk.injEq] at h
      rw [← h.2] at hexec
      exact Bool.noConfusion hexec
    · rw [truthyNat_some aid haid] at h
      dsimp only at h
      cases hfind : findApproval st aid with
      | none =>
          rw [hfind] at h
          dsimp only at h
          rw [Prod.mk.injEq] at h
          rw [← h.2] at hexec
          exact Bool.noConfusion hexec
      | some row =>
          rw [hfind] at h
          dsimp only at h
          by_cases htype : pyStrip row.request_type ≠ strOf "inherit.apply"
          · rw [if_pos htype, Prod.mk.injEq] at h
            rw [← h.2] at hexec
            exact Bool.noConfusion hexec
          · rw [if_neg htype] at h
            by_cases hstat : pyLower (pyStrip row.status) ≠ strOf "approved"
            · rw [if_pos hstat, Prod.mk.injEq] at h
              rw [← h.2] at hexec
              exact Bool.noConfusion hexec
            · rw [if_neg hstat] at h
              by_cases hown : (match row.requested_by with
                  | some rb => decide (rb ≠ 0 ∧ rb ≠ user.id)
                  | none => false) = true
              · rw [if_pos hown, Prod.mk.injEq] at h
                rw [← h.2] at hexec
                exact Bool.noConfusion hexec
              · rw [if_neg hown] at h
                by_cases hpay : row.payload ≠ ctx
                · rw [if_pos hpay, Prod.mk.injEq] at h
                  rw [← h.2] at hexec
                  exact Bool.noConfusion hexec
                · refine ⟨row, rfl, not_not.mp htype, not_not.mp hstat, ?_,
                    not_not.mp hpay⟩
                  intro rb hrb hrb0
                  by_contra hne
                  apply hown
                  rw [hrb]
                  exact decide_eq_true ⟨hrb0, hne⟩
  · intro st rtype target payload user hbound
    refine ⟨{ id := st.next_id, request_type := pyStrip rtype, target := target,
              payload := payload, status := strOf "pending",
              requested_by := some user.id, reviewed_by := none,
              review_note := none, executed_at := false,
              execution_result := none }, ?_, rfl, rfl, rfl⟩
    show List.find? _ (st.approvals ++ [_]) = _
    have hsnd : (createApprovalRequest st rtype target payload user).2 = st.next_id := rfl
    rw [hsnd]
    have hnone : ∀ r ∈ st.approvals,
        (fun r : ApprovalRow => decide (r.id = st.next_id)) r = false := by
      intro r hr
      simp only [decide_eq_false_iff_not]
      have := hbound r hr
      omega
    rw [find?_append_of_none _ st.approvals _ hnone]
    rw [List.find?_cons_of_pos _ (by simp)]
  · intro env st user ctx aid row hrole haid hfind htype hstat hown hpay
    simp only [submitInherit]
    rw [if_pos (⟨trivial, hrole⟩ : True ∧ ¬ user.role = strOf "admin")]
    rw [truthyNat_some aid haid]
    dsimp only
    rw [hfind]
    dsimp only
    rw [if_neg (not_not_intro htype), if_neg (not_not_intro hstat), if_neg hown,
      if_pos hpay]

/-- A payload differing from the stored one only in
`allow_missing_kaplama`. -/
def ctxC3 : InheritCtx := ⟨strOf "P", [], [], [], true, [], [], none, none⟩

/-- Witness for C3: the payload-drift branch at concrete inputs — the
tampered payload is rejected with the conflict error and the state is
unchanged. -/
theorem c3_approval_gate_checks_witness :
    submitInherit true envW1 stC2 userC2 ctxC3 (some 1)
      = (stC2, SubmitOutcome.httpError 400
          (strOf "Onay sonrası payload değişmiş. Yeniden onay isteği açın.")) := by
  exact c3_approval_gate_checks.2.2 envW1 stC2 userC2 ctxC3 1 rowC2
    (by decide) (by decide) (by rfl) (by decide) (by decide) (by decide) (by decide)


end Maliyet
